import Mathlib

/-!
Shallow embedding of the `ha-flow` failover tool (repository `c0depwn/ha-flow`).

The repository contains three near-duplicate Go entry points:
* `src/main.go` — selection by an explicit instance-ID list (`-instance_ids`);
* the single-private-IP variant embedded in `src/README.md` (`-ip` flag);
* the peer-address-list variant embedded in `src/README.md` (`-peers` flag).

Each program is embedded as a pure function from a provider environment
(`Env`, the data the Flow cloud API would return, together with
success/failure switches for each API call) to the ordered list of provider
calls it issues (`List Call`) and its final result (`Except String Unit`,
where `.error` corresponds to `failOnErr` logging the message and exiting
with a non-zero code).

Machine integers of the Go source (`int`) are embedded as `Int`; `net.ParseIP`
and `net.ParseCIDR` are embedded for IPv4 dotted-quad addresses, the only
address family the tool is used with (the empty string and malformed strings
are rejected exactly as in Go).
-/

set_option autoImplicit false

namespace HAFlow

/-- The instance attachment recorded on an elastic IP
(`compute.ElasticIP.Attachment`): instance identifier and name.
An unattached elastic IP carries the zero value. -/
structure Attachment where
  id : Int
  name : String
  deriving DecidableEq

/-- `compute.ElasticIP`: identifier, public address, current private address
(empty string while unattached) and current attachment. -/
structure ElasticIP where
  id : Int
  publicIP : String
  privateIP : String
  attachment : Attachment
  deriving DecidableEq

/-- The network of a network interface; only its CIDR string is consumed. -/
structure Network where
  cidr : String
  deriving DecidableEq

/-- `compute.NetworkInterface`: identifier, private address, owning network
and the elastic IP presently attached to it (zero value when none,
recognised by an empty public address, exactly as the Go code does). -/
structure NetworkInterface where
  id : Int
  privateIP : String
  network : Network
  attachedElasticIP : ElasticIP
  deriving DecidableEq

/-- `compute.ServerStatus`: only the numeric status identifier is consumed. -/
structure ServerStatus where
  id : Int
  deriving DecidableEq

/-- `compute.Server`: identifier, name and lifecycle status. -/
structure Server where
  id : Int
  name : String
  status : ServerStatus
  deriving DecidableEq

/-- The numeric value of `compute.ServerStatusRunning` from the external
`goclient` library. The programs only ever compare a status identifier with
this constant for equality, so nothing below depends on its concrete value. -/
def serverStatusRunning : Int := 1

/-- A provider API call issued by one run, in issue order. -/
inductive Call where
  /-- `ElasticIPService.List` -/
  | listEIPs
  /-- `ServerService.List` -/
  | listServers
  /-- `ServerService.Get id` -/
  | getServer (id : Int)
  /-- `ServerService.NetworkInterfaces(instanceID).List` -/
  | listNics (instanceID : Int)
  /-- `ServerElasticIPService(instanceID).Detach(elasticIPID)` -/
  | detach (instanceID : Int) (elasticIPID : Int)
  /-- `ServerElasticIPService(instanceID).Attach{elasticIPID, networkInterfaceID}` -/
  | attach (instanceID : Int) (elasticIPID : Int) (networkInterfaceID : Int)
  deriving DecidableEq

/-- The provider environment one run executes against: the data every listing
call returns, plus a success switch for each call (a `false` switch makes the
corresponding call fail with a transport/API error). -/
structure Env where
  eips : List ElasticIP
  servers : List Server
  nics : Int → List NetworkInterface
  listEIPsOK : Bool
  listServersOK : Bool
  getOK : Int → Bool
  listNicsOK : Int → Bool
  detachOK : Int → Int → Bool
  attachOK : Int → Int → Int → Bool

/-! ### IPv4 address and CIDR parsing (`net.ParseIP`, `net.ParseCIDR`) -/

/-- Split a character list at every occurrence of `sep`
(like Go `strings.Split`: splitting the empty string yields one empty field). -/
def splitOnChar (sep : Char) : List Char → List (List Char)
  | [] => [[]]
  | c :: rest =>
    let r := splitOnChar sep rest
    if c == sep then [] :: r
    else
      match r with
      | [] => [[c]]
      | h :: t => (c :: h) :: t

/-- Decimal value of a digit list (callers check `isDigit` first). -/
def digitsToNat (cs : List Char) : Nat :=
  cs.foldl (fun n c => n * 10 + (c.toNat - 48)) 0

/-- One dotted-quad field of `net.ParseIP`: one to three digits, no leading
zero (Go rejects leading zeros in IPv4 fields), value at most 255. -/
def parseOctet (cs : List Char) : Option Nat :=
  match cs with
  | [] => none
  | '0' :: _ :: _ => none
  | _ =>
    if cs.length > 3 then none
    else if cs.any (fun c => !c.isDigit) then none
    else
      let n := digitsToNat cs
      if n ≤ 255 then some n else none

/-- `net.ParseIP` restricted to IPv4 dotted-quad form, yielding the address
as a natural number below `2 ^ 32`; `none` is Go's `nil` result
(in particular `parseIPv4 "" = none`). -/
def parseIPv4 (s : String) : Option Nat :=
  match splitOnChar '.' s.data with
  | [a, b, c, d] =>
    match parseOctet a, parseOctet b, parseOctet c, parseOctet d with
    | some va, some vb, some vc, some vd =>
      some (((va * 256 + vb) * 256 + vc) * 256 + vd)
    | _, _, _, _ => none
  | _ => none

/-- The prefix-length field of `net.ParseCIDR`: a non-empty run of digits
whose value is at most 32 (Go's `dtoi` accepts leading zeros here). -/
def parsePrefixLen (cs : List Char) : Option Nat :=
  match cs with
  | [] => none
  | _ =>
    if cs.any (fun c => !c.isDigit) then none
    else
      let n := digitsToNat cs
      if n ≤ 32 then some n else none

/-- `net.ParseCIDR` for IPv4: address and prefix length,
`none` on any malformed input. -/
def parseCIDR (s : String) : Option (Nat × Nat) :=
  match splitOnChar '/' s.data with
  | [a, m] =>
    match parseIPv4 (String.mk a), parsePrefixLen m with
    | some addr, some n => some (addr, n)
    | _, _ => none
  | _ => none

/-- `ipNet.Contains ip`: the high `prefixLen` bits of the candidate agree with
those of the network address (masked comparison, expressed by division). -/
def cidrContains (ipNet : Nat × Nat) (ip : Nat) : Bool :=
  ip / 2 ^ (32 - ipNet.2) == ipNet.1 / 2 ^ (32 - ipNet.2)

/-! ### Locator (`findElasticIPID`, identical in all three variants) -/

/-- `findElasticIPID`: list all elastic IPs (unfiltered) and return the first
whose public address equals the input; `"elastic ip not found"` otherwise. -/
def findElasticIPID (env : Env) (eip : String) :
    List Call × Except String ElasticIP :=
  if env.listEIPsOK then
    match env.eips.find? (fun item => item.publicIP == eip) with
    | some item => ([Call.listEIPs], Except.ok item)
    | none => ([Call.listEIPs], Except.error "elastic ip not found")
  else ([Call.listEIPs], Except.error "provider error")

/-! ### Selector of `src/main.go` (`pickNextInstance`, `pickNetworkInterface`) -/

/-- `service.Get(ctx, id)`: fetch one server by identifier; fails when the
call's success switch is off or the identifier is unknown. -/
def getServer (env : Env) (id : Int) : Except String Server :=
  if env.getOK id then
    match env.servers.find? (fun s => s.id == id) with
    | some s => Except.ok s
    | none => Except.error "provider error"
  else Except.error "provider error"

/-- `pickNextInstance`: walk the caller-supplied ID list in order, skip the
unavailable (failed) instance, fetch each remaining one, propagate fetch
errors, skip non-running instances, return the first running one. -/
def pickNextInstance (env : Env) (haInstanceIDs : List Int)
    (unavailableInstanceID : Int) : List Call × Except String Int :=
  match haInstanceIDs with
  | [] => ([], Except.error "no available instance found")
  | instanceID :: rest =>
    if instanceID == unavailableInstanceID then
      pickNextInstance env rest unavailableInstanceID
    else
      match getServer env instanceID with
      | Except.error e => ([Call.getServer instanceID], Except.error e)
      | Except.ok server =>
        if server.status.id == serverStatusRunning then
          ([Call.getServer instanceID], Except.ok instanceID)
        else
          let r := pickNextInstance env rest unavailableInstanceID
          (Call.getServer instanceID :: r.1, r.2)

/-- The interface loop of `pickNetworkInterface`: parse each interface's
subnet CIDR, fail hard on a malformed CIDR, return the first interface whose
subnet contains the previously-attached private address. -/
def scanNics (nics : List NetworkInterface) (previousIP : Nat) :
    Except String NetworkInterface :=
  match nics with
  | [] =>
    Except.error "no network interface in same network as previous private ip found"
  | nic :: rest =>
    match parseCIDR nic.network.cidr with
    | none => Except.error "invalid CIDR"
    | some ipNet =>
      if cidrContains ipNet previousIP then Except.ok nic
      else scanNics rest previousIP

/-- `pickNetworkInterface`: list the instance's network interfaces, parse the
previously-attached private address (failing with `"invalid private IP"` when
it does not parse, e.g. the empty sentinel of an unattached elastic IP), then
scan the interfaces for the first subnet containing it. -/
def pickNetworkInterface (env : Env) (instanceID : Int)
    (previousPrivateIP : String) : List Call × Except String NetworkInterface :=
  if env.listNicsOK instanceID then
    match parseIPv4 previousPrivateIP with
    | none => ([Call.listNics instanceID], Except.error "invalid private IP")
    | some previousIP =>
      ([Call.listNics instanceID], scanNics (env.nics instanceID) previousIP)
  else ([Call.listNics instanceID], Except.error "provider error")

/-! ### Transitioner pieces shared by the run functions -/

/-- The final attach step (`serverAttachmentService.Attach`): the call is
issued against the service's instance identifier and carries the elastic IP
and target network interface identifiers. -/
def attachStep (env : Env) (pre : List Call)
    (serviceInstanceID elasticIPID networkInterfaceID : Int) :
    List Call × Except String Unit :=
  let ac := Call.attach serviceInstanceID elasticIPID networkInterfaceID
  if env.attachOK serviceInstanceID elasticIPID networkInterfaceID then
    (pre ++ [ac], Except.ok ())
  else (pre ++ [ac], Except.error "provider error")

/-- The body of `main` in `src/main.go` (the `-instance_ids` variant), after
flag validation: locate the elastic IP, detach it unconditionally from its
current attachment, pick the next instance and its network interface, detach
any elastic IP occupying the target interface, attach.
Note that the source constructs the attach service with
`elasticIP.Attachment.ID` (the old instance), so the attach call is issued
against that identifier. -/
def runInstanceIDs (env : Env) (haEIP : String) (haInstanceIDs : List Int) :
    List Call × Except String Unit :=
  let l := findElasticIPID env haEIP
  match l.2 with
  | Except.error e => (l.1, Except.error e)
  | Except.ok elasticIP =>
    let dc := Call.detach elasticIP.attachment.id elasticIP.id
    if env.detachOK elasticIP.attachment.id elasticIP.id then
      let p := pickNextInstance env haInstanceIDs elasticIP.attachment.id
      match p.2 with
      | Except.error e => (l.1 ++ dc :: p.1, Except.error e)
      | Except.ok instanceID =>
        let q := pickNetworkInterface env instanceID elasticIP.privateIP
        match q.2 with
        | Except.error e => (l.1 ++ dc :: p.1 ++ q.1, Except.error e)
        | Except.ok networkInterface =>
          let base := l.1 ++ dc :: p.1 ++ q.1
          if networkInterface.attachedElasticIP.publicIP == "" then
            attachStep env base elasticIP.attachment.id elasticIP.id
              networkInterface.id
          else
            let dc2 := Call.detach instanceID networkInterface.attachedElasticIP.id
            if env.detachOK instanceID networkInterface.attachedElasticIP.id then
              attachStep env (base ++ [dc2]) elasticIP.attachment.id elasticIP.id
                networkInterface.id
            else (base ++ [dc2], Except.error "provider error")
    else (l.1 ++ [dc], Except.error "provider error")

/-! ### The single-private-IP and peer-list variants (from `src/README.md`) -/

/-- `filterPeers`: drop every occurrence of the banned (previously-attached)
private address from the peer list, keeping the remaining order. -/
def filterPeers (peersPrivateIPs : List String) (bannedIP : String) :
    List String :=
  match peersPrivateIPs with
  | [] => []
  | ip :: rest =>
    if ip == bannedIP then filterPeers rest bannedIP
    else ip :: filterPeers rest bannedIP

/-- `Target`: the resolved failover target of the README variants. -/
structure Target where
  instanceID : Int
  instanceName : String
  networkInterfaceID : Int
  attachedEIP : ElasticIP
  deriving DecidableEq

/-- The server loop of `findFailOverTarget` (the `-ip` variant): skip
non-running servers, list each running server's interfaces, return the first
interface whose private address equals the requested one. -/
def scanServersIP (env : Env) (servers : List Server) (privateIP : String) :
    List Call × Except String Target :=
  match servers with
  | [] =>
    ([], Except.error
      ("fail over instance with private ip " ++ privateIP ++ " not found"))
  | srv :: rest =>
    if srv.status.id == serverStatusRunning then
      if env.listNicsOK srv.id then
        match (env.nics srv.id).find? (fun nic => nic.privateIP == privateIP) with
        | some nic =>
          ([Call.listNics srv.id],
            Except.ok ⟨srv.id, srv.name, nic.id, nic.attachedElasticIP⟩)
        | none =>
          let r := scanServersIP env rest privateIP
          (Call.listNics srv.id :: r.1, r.2)
      else ([Call.listNics srv.id], Except.error "provider error")
    else scanServersIP env rest privateIP

/-- `findFailOverTarget`: list all servers (unfiltered) and scan them in
provider-listing order for an interface carrying the requested private
address. -/
def findFailOverTarget (env : Env) (privateIP : String) :
    List Call × Except String Target :=
  if env.listServersOK then
    let r := scanServersIP env env.servers privateIP
    (Call.listServers :: r.1, r.2)
  else ([Call.listServers], Except.error "provider error")

/-- The server loop of `pickFailOverTarget` (the `-peers` variant): skip
non-running servers, list each running server's interfaces, return the first
interface whose private address equals some address of the peer list
(`slices.ContainsFunc`). -/
def scanServersPeers (env : Env) (servers : List Server)
    (peersPrivateIPs : List String) : List Call × Except String Target :=
  match servers with
  | [] => ([], Except.error "no available instance found")
  | srv :: rest =>
    if srv.status.id == serverStatusRunning then
      if env.listNicsOK srv.id then
        match (env.nics srv.id).find?
            (fun nic => peersPrivateIPs.any (fun ip => nic.privateIP == ip)) with
        | some nic =>
          ([Call.listNics srv.id],
            Except.ok ⟨srv.id, srv.name, nic.id, nic.attachedElasticIP⟩)
        | none =>
          let r := scanServersPeers env rest peersPrivateIPs
          (Call.listNics srv.id :: r.1, r.2)
      else ([Call.listNics srv.id], Except.error "provider error")
    else scanServersPeers env rest peersPrivateIPs

/-- `pickFailOverTarget`: list all servers (unfiltered) and scan them in
provider-listing order for an interface whose private address is in the
filtered peer list. -/
def pickFailOverTarget (env : Env) (peersPrivateIPs : List String) :
    List Call × Except String Target :=
  if env.listServersOK then
    let r := scanServersPeers env env.servers peersPrivateIPs
    (Call.listServers :: r.1, r.2)
  else ([Call.listServers], Except.error "provider error")

/-- `prepareTarget`: when an elastic IP already occupies the target interface
(non-empty public address sentinel), detach it first; otherwise do nothing. -/
def prepareTarget (env : Env) (target : Target) :
    List Call × Except String Unit :=
  if target.attachedEIP.publicIP == "" then ([], Except.ok ())
  else
    let c := Call.detach target.instanceID target.attachedEIP.id
    if env.detachOK target.instanceID target.attachedEIP.id then
      ([c], Except.ok ())
    else ([c], Except.error "provider error")

/-- The body of `main` in the `-ip` variant: locate the elastic IP, stop with
success when it already carries the requested private address (the
idempotency short-circuit), otherwise detach, find the failover target by
exact private-address match, prepare it and attach. -/
def runPrivateIP (env : Env) (haEIP : String) (privateIP : String) :
    List Call × Except String Unit :=
  let l := findElasticIPID env haEIP
  match l.2 with
  | Except.error e => (l.1, Except.error e)
  | Except.ok elasticIP =>
    if elasticIP.privateIP == privateIP then (l.1, Except.ok ())
    else
      let dc := Call.detach elasticIP.attachment.id elasticIP.id
      if env.detachOK elasticIP.attachment.id elasticIP.id then
        let f := findFailOverTarget env privateIP
        match f.2 with
        | Except.error e => (l.1 ++ dc :: f.1, Except.error e)
        | Except.ok target =>
          let pr := prepareTarget env target
          match pr.2 with
          | Except.error e => (l.1 ++ dc :: f.1 ++ pr.1, Except.error e)
          | Except.ok _ =>
            attachStep env (l.1 ++ dc :: f.1 ++ pr.1) target.instanceID
              elasticIP.id target.networkInterfaceID
      else (l.1 ++ [dc], Except.error "provider error")

/-- The body of `main` in the `-peers` variant: locate the elastic IP, detach
it unconditionally, remove the failed private address from the peer list,
pick the failover target from the filtered list, prepare it and attach. -/
def runPeers (env : Env) (haEIP : String) (haPeerIPs : List String) :
    List Call × Except String Unit :=
  let l := findElasticIPID env haEIP
  match l.2 with
  | Except.error e => (l.1, Except.error e)
  | Except.ok elasticIP =>
    let dc := Call.detach elasticIP.attachment.id elasticIP.id
    if env.detachOK elasticIP.attachment.id elasticIP.id then
      let candidatePrivateIPs := filterPeers haPeerIPs elasticIP.privateIP
      let f := pickFailOverTarget env candidatePrivateIPs
      match f.2 with
      | Except.error e => (l.1 ++ dc :: f.1, Except.error e)
      | Except.ok target =>
        let pr := prepareTarget env target
        match pr.2 with
        | Except.error e => (l.1 ++ dc :: f.1 ++ pr.1, Except.error e)
        | Except.ok _ =>
          attachStep env (l.1 ++ dc :: f.1 ++ pr.1) target.instanceID
            elasticIP.id target.networkInterfaceID
    else (l.1 ++ [dc], Except.error "provider error")

/-! ### Flag validation and full entry point of `src/main.go` -/

/-- `checkFlagToken`: the token flag must be non-empty. -/
def checkFlagToken (flagToken : String) : Except String String :=
  if flagToken == "" then Except.error "missing required flag: --token"
  else Except.ok flagToken

/-- `checkFlagEIP`: the elastic-IP flag must be non-empty and parse as an
address. -/
def checkFlagEIP (flagEIP : String) : Except String String :=
  if flagEIP == "" then Except.error "missing required flag: --eip"
  else
    match parseIPv4 flagEIP with
    | none => Except.error ("invalid eip: " ++ flagEIP)
    | some _ => Except.ok flagEIP

/-- `strconv.Atoi`: optional sign followed by a non-empty run of digits
(the embedding uses unbounded `Int`, so Go's range check is dropped). -/
def natDigits (cs : List Char) : Option Nat :=
  match cs with
  | [] => none
  | _ =>
    if cs.any (fun c => !c.isDigit) then none
    else some (digitsToNat cs)

/-- `strconv.Atoi` on a string. -/
def atoi (s : String) : Option Int :=
  match s.data with
  | '+' :: rest => (natDigits rest).map (fun n => (n : Int))
  | '-' :: rest => (natDigits rest).map (fun n => -(n : Int))
  | cs => (natDigits cs).map (fun n => (n : Int))

/-- The element loop of `checkFlagInstances`. -/
def parseInstanceIDs (vals : List (List Char)) : Except String (List Int) :=
  match vals with
  | [] => Except.ok []
  | v :: rest =>
    match atoi (String.mk v) with
    | none => Except.error ("invalid instance_id: " ++ String.mk v)
    | some id =>
      match parseInstanceIDs rest with
      | Except.error e => Except.error e
      | Except.ok ids => Except.ok (id :: ids)

/-- `checkFlagInstances`: the flag must be non-empty; split it on commas and
parse every entry as an integer. -/
def checkFlagInstances (flagInstances : String) : Except String (List Int) :=
  if flagInstances == "" then
    Except.error "missing required flag: --instance_ids"
  else parseInstanceIDs (splitOnChar ',' flagInstances.data)

/-- The full `main` of `src/main.go`: validate the three flags in order
(each failure exits before any provider call), then run the orchestration. -/
def mainInstanceIDs (env : Env) (flagToken flagEIP flagInstances : String) :
    List Call × Except String Unit :=
  match checkFlagToken flagToken with
  | Except.error e => ([], Except.error e)
  | Except.ok _ =>
    match checkFlagEIP flagEIP with
    | Except.error e => ([], Except.error e)
    | Except.ok haEIP =>
      match checkFlagInstances flagInstances with
      | Except.error e => ([], Except.error e)
      | Except.ok haInstanceIDs => runInstanceIDs env haEIP haInstanceIDs

/-! ### Observation helpers over runs -/

/-- Whether a call is a detach. -/
def isDetach : Call → Bool
  | Call.detach _ _ => true
  | _ => false

/-- Whether a call is an attach. -/
def isAttach : Call → Bool
  | Call.attach _ _ _ => true
  | _ => false

/-- Number of detach calls in a trace. -/
def countDetach (tr : List Call) : Nat := tr.countP (fun c => isDetach c)

/-- Number of attach calls in a trace. -/
def countAttach (tr : List Call) : Nat := tr.countP (fun c => isAttach c)

/-- The process exit code determined by a run result (`failOnErr` exits with
code 1 on any error, `main` returns normally otherwise). -/
def exitCode : Except String Unit → Nat
  | Except.ok _ => 0
  | Except.error _ => 1

/-- Whether the environment lets a given provider call succeed
(for `getServer` the identifier must also exist in the listing). -/
def callOK (env : Env) : Call → Bool
  | Call.listEIPs => env.listEIPsOK
  | Call.listServers => env.listServersOK
  | Call.getServer id => env.getOK id && (env.servers.find? (fun s => s.id == id)).isSome
  | Call.listNics i => env.listNicsOK i
  | Call.detach a b => env.detachOK a b
  | Call.attach a b c => env.attachOK a b c

/-- Every call of the trace succeeds in the environment. -/
def allOK (env : Env) (tr : List Call) : Prop :=
  ∀ c ∈ tr, callOK env c = true

/-- Whether the server with the given identifier is listed and running. -/
def isRunningB (env : Env) (id : Int) : Bool :=
  match env.servers.find? (fun s => s.id == id) with
  | some s => s.status.id == serverStatusRunning
  | none => false

/-- Whether a run result is a success. -/
def exceptOK {α : Type} : Except String α → Bool
  | Except.ok _ => true
  | Except.error _ => false

/-- Whether an interface's subnet CIDR parses. -/
def nicCIDROK (nic : NetworkInterface) : Bool :=
  (parseCIDR nic.network.cidr).isSome

/-- Whether an interface's subnet parses and contains the given address
(the eligibility test of `pickNetworkInterface`, as a Boolean). -/
def nicMatches (p : Nat) (nic : NetworkInterface) : Bool :=
  match parseCIDR nic.network.cidr with
  | some ipNet => cidrContains ipNet p
  | none => false

/-! ### The claim's selection rule, for refinement comparison -/

/-- Modelled from the claim's words (not from the source), for refinement
comparison with `pickNextInstance`/`pickNetworkInterface`: the chosen failover
target is the first entry of the candidate list (in caller-supplied order,
excluding the failed instance's identifier) that is running AND has a network
interface whose subnet contains the previously-attached private address. -/
def specFirstEligible (env : Env) (ids : List Int) (failed : Int)
    (previousPrivateIP : String) : Option Int :=
  match parseIPv4 previousPrivateIP with
  | none => none
  | some p =>
    ids.find? (fun id =>
      (id != failed) && isRunningB env id &&
        (env.nics id).any (fun nic => nicMatches p nic))

/-! ### Concrete environments used by counterexamples and witnesses -/

/-- The zero `compute.ElasticIP` value (no elastic IP attached). -/
def emptyEIP : ElasticIP := ⟨0, "", "", ⟨0, ""⟩⟩

/-- An environment in which every provider call succeeds. -/
def mkEnv (eips : List ElasticIP) (servers : List Server)
    (nics : Int → List NetworkInterface) : Env :=
  { eips := eips, servers := servers, nics := nics,
    listEIPsOK := true, listServersOK := true,
    getOK := fun _ => true, listNicsOK := fun _ => true,
    detachOK := fun _ _ => true, attachOK := fun _ _ _ => true }

/-- Elastic IP currently attached to instance 1, private address 10.0.0.3. -/
def eipC1 : ElasticIP := ⟨10, "198.51.100.7", "10.0.0.3", ⟨1, "a"⟩⟩

/-- The interface of instance 2 carrying exactly the elastic IP's current
private address (the already-correct target of the C1 scenario). -/
def nicC1 : NetworkInterface := ⟨31, "10.0.0.3", ⟨"10.0.0.0/24"⟩, emptyEIP⟩

/-- Instances 1 and 2 running; instance 2 has an interface whose private
address is exactly the elastic IP's current one (already-correct target). -/
def envC1 : Env :=
  mkEnv [eipC1]
    [⟨1, "a", ⟨serverStatusRunning⟩⟩, ⟨2, "b", ⟨serverStatusRunning⟩⟩]
    (fun i => if i == 2 then [nicC1] else [])

/-- Instance 2 running with an interface in a foreign subnet, instance 3
running with an interface whose subnet contains 10.0.0.1. -/
def envC2 : Env :=
  mkEnv []
    [⟨2, "b", ⟨serverStatusRunning⟩⟩, ⟨3, "c", ⟨serverStatusRunning⟩⟩]
    (fun i =>
      if i == 2 then [⟨21, "10.1.0.5", ⟨"10.1.0.0/24"⟩, emptyEIP⟩]
      else if i == 3 then [⟨32, "10.0.0.3", ⟨"10.0.0.0/24"⟩, emptyEIP⟩]
      else [])

/-- Two running instances with one interface each: 10.0.0.1 on instance 1 and
10.0.0.2 on instance 2. -/
def envC4 : Env :=
  mkEnv []
    [⟨1, "a", ⟨serverStatusRunning⟩⟩, ⟨2, "b", ⟨serverStatusRunning⟩⟩]
    (fun i =>
      if i == 1 then [⟨11, "10.0.0.1", ⟨"10.0.0.0/24"⟩, emptyEIP⟩]
      else if i == 2 then [⟨21, "10.0.0.2", ⟨"10.0.0.0/24"⟩, emptyEIP⟩]
      else [])

/-- Elastic IP 77, attached to instance 2 and occupying its interface 31. -/
def occC5 : ElasticIP := ⟨77, "198.51.100.8", "10.0.0.2", ⟨2, "b"⟩⟩

/-- Elastic IP 10 attached to instance 1; the failover target interface on
instance 2 is occupied by the different elastic IP 77. -/
def envC5 : Env :=
  mkEnv [⟨10, "198.51.100.7", "10.0.0.1", ⟨1, "a"⟩⟩]
    [⟨1, "a", ⟨serverStatusRunning⟩⟩, ⟨2, "b", ⟨serverStatusRunning⟩⟩]
    (fun i => if i == 2 then [⟨31, "10.0.0.2", ⟨"10.0.0.0/24"⟩, occC5⟩] else [])

/-- Elastic IP 10 is unattached (empty private address and zero attachment),
as left behind by a run killed between detach and attach; instance 2 is a
healthy running target. -/
def envC6 : Env :=
  mkEnv [⟨10, "198.51.100.7", "", ⟨0, ""⟩⟩]
    [⟨2, "b", ⟨serverStatusRunning⟩⟩]
    (fun i => if i == 2 then [⟨31, "10.0.0.2", ⟨"10.0.0.0/24"⟩, emptyEIP⟩] else [])

/-- Instance 5 running; its first interface has a malformed subnet CIDR and
its second interface's subnet contains 10.0.0.1. -/
def envC9 : Env :=
  mkEnv []
    [⟨5, "e", ⟨serverStatusRunning⟩⟩]
    (fun i =>
      if i == 5 then
        [⟨51, "10.9.9.9", ⟨"not-a-cidr"⟩, emptyEIP⟩,
         ⟨52, "10.0.0.9", ⟨"10.0.0.0/24"⟩, emptyEIP⟩]
      else [])

/-- Elastic IP attached to instance 3 with private address 10.0.0.3, for the
idempotency short-circuit of the single-private-IP variant. -/
def envC1A : Env :=
  mkEnv [⟨10, "198.51.100.7", "10.0.0.3", ⟨3, "c"⟩⟩]
    [⟨3, "c", ⟨serverStatusRunning⟩⟩]
    (fun _ => [])

/-! ### Basic lemmas about traces and searches -/

theorem allOK_nil (env : Env) : allOK env [] := by
  intro c hc
  cases hc

theorem allOK_cons {env : Env} {c : Call} {tr : List Call} :
    allOK env (c :: tr) ↔ callOK env c = true ∧ allOK env tr := by
  constructor
  · intro h
    exact ⟨h c (List.mem_cons_self c tr), fun x hx => h x (List.mem_cons_of_mem c hx)⟩
  · rintro ⟨h1, h2⟩ x hx
    rcases List.mem_cons.mp hx with h | h
    · exact h ▸ h1
    · exact h2 x h

theorem allOK_append {env : Env} {t1 t2 : List Call} :
    allOK env (t1 ++ t2) ↔ allOK env t1 ∧ allOK env t2 := by
  constructor
  · intro h
    exact ⟨fun c hc => h c (List.mem_append_left _ hc),
      fun c hc => h c (List.mem_append_right _ hc)⟩
  · rintro ⟨h1, h2⟩ c hc
    rcases List.mem_append.mp hc with h | h
    · exact h1 c h
    · exact h2 c h

/-- A successful `find?` splits the list at its first satisfying element. -/
theorem find_eq_some_split {α : Type} (p : α → Bool) :
    ∀ (l : List α) (a : α), l.find? p = some a →
      p a = true ∧ ∃ l1 l2, l = l1 ++ a :: l2 ∧ ∀ x ∈ l1, p x = false := by
  intro l
  induction l with
  | nil => intro a h; cases h
  | cons x xs ih =>
    intro a h
    by_cases hx : p x = true
    · rw [List.find?_cons_of_pos _ hx] at h
      cases h
      exact ⟨hx, [], xs, rfl, fun y hy => absurd hy (List.not_mem_nil y)⟩
    · rw [List.find?_cons_of_neg _ hx] at h
      have hx' : p x = false := by
        cases hpx : p x
        · rfl
        · exact absurd hpx hx
      obtain ⟨hpa, l1, l2, hl, hall⟩ := ih a h
      refine ⟨hpa, x :: l1, l2, by rw [hl]; rfl, ?_⟩
      intro y hy
      rcases List.mem_cons.mp hy with h' | h'
      · exact h' ▸ hx'
      · exact hall y h'

theorem getServer_ok_find {env : Env} {id : Int} {s : Server}
    (h : getServer env id = Except.ok s) :
    env.servers.find? (fun x => x.id == id) = some s ∧ env.getOK id = true := by
  unfold getServer at h
  by_cases hg : env.getOK id = true
  · rw [if_pos hg] at h
    cases hf : env.servers.find? (fun x => x.id == id) with
    | some s' => rw [hf] at h; cases h; exact ⟨rfl, hg⟩
    | none => rw [hf] at h; cases h
  · rw [if_neg hg] at h; cases h

theorem getServer_ok_callOK {env : Env} {id : Int} {s : Server}
    (h : getServer env id = Except.ok s) :
    callOK env (Call.getServer id) = true := by
  obtain ⟨hf, hg⟩ := getServer_ok_find h
  simp [callOK, hf, hg]

theorem getServer_err_callOK {env : Env} {id : Int} {e : String}
    (h : getServer env id = Except.error e) :
    callOK env (Call.getServer id) = false := by
  unfold getServer at h
  by_cases hg : env.getOK id = true
  · rw [if_pos hg] at h
    cases hf : env.servers.find? (fun x => x.id == id) with
    | some s' => rw [hf] at h; cases h
    | none => simp [callOK, hf, hg]
  · have : env.getOK id = false := by
      cases hgg : env.getOK id
      · rfl
      · exact absurd hgg hg
    simp [callOK, this]

/-- The locator always issues exactly the one listing call. -/
theorem findElasticIPID_fst (env : Env) (eip : String) :
    (findElasticIPID env eip).1 = [Call.listEIPs] := by
  unfold findElasticIPID
  by_cases h : env.listEIPsOK = true
  · rw [if_pos h]
    cases hf : env.eips.find? (fun item => item.publicIP == eip) <;> simp [hf]
  · rw [if_neg h]

/-! ### Inversion lemmas for the selector of `src/main.go` -/

theorem scanNics_cons_parse_none {n : NetworkInterface}
    {rest : List NetworkInterface} {p : Nat}
    (hc : parseCIDR n.network.cidr = none) :
    scanNics (n :: rest) p = Except.error "invalid CIDR" := by
  unfold scanNics
  rw [hc]

theorem scanNics_cons_parse_some {n : NetworkInterface}
    {rest : List NetworkInterface} {p : Nat} {ipNet : Nat × Nat}
    (hc : parseCIDR n.network.cidr = some ipNet) :
    scanNics (n :: rest) p =
      if cidrContains ipNet p = true then Except.ok n else scanNics rest p := by
  simp only [scanNics, hc]

theorem scanNics_ok {p : Nat} :
    ∀ {nics : List NetworkInterface} {nic : NetworkInterface},
      scanNics nics p = Except.ok nic →
      nicMatches p nic = true ∧
        ∃ l1 l2, nics = l1 ++ nic :: l2 ∧
          ∀ m ∈ l1, nicCIDROK m = true ∧ nicMatches p m = false := by
  intro nics
  induction nics with
  | nil => intro nic h; cases h
  | cons n rest ih =>
    intro nic h
    cases hc : parseCIDR n.network.cidr with
    | none =>
      rw [scanNics_cons_parse_none hc] at h
      cases h
    | some ipNet =>
      rw [scanNics_cons_parse_some hc] at h
      by_cases hm : cidrContains ipNet p = true
      · rw [if_pos hm] at h
        cases h
        refine ⟨by simp [nicMatches, hc, hm], [], rest, rfl, ?_⟩
        intro m hm'
        cases hm'
      · rw [if_neg hm] at h
        obtain ⟨h1, l1, l2, hl, hall⟩ := ih h
        refine ⟨h1, n :: l1, l2, by rw [hl]; rfl, ?_⟩
        intro m hmem
        rcases List.mem_cons.mp hmem with h' | h'
        · subst h'
          refine ⟨by simp [nicCIDROK, hc], ?_⟩
          simp only [nicMatches, hc]
          cases hcc : cidrContains ipNet p
          · rfl
          · exact absurd hcc hm
        · exact hall m h'

theorem scanNics_none {p : Nat} :
    ∀ {nics : List NetworkInterface},
      (∀ m ∈ nics, nicCIDROK m = true ∧ nicMatches p m = false) →
      scanNics nics p =
        Except.error "no network interface in same network as previous private ip found" := by
  intro nics
  induction nics with
  | nil => intro _; rfl
  | cons n rest ih =>
    intro h
    obtain ⟨hok, hmm⟩ := h n (List.mem_cons_self n rest)
    cases hc : parseCIDR n.network.cidr with
    | none => simp [nicCIDROK, hc] at hok
    | some ipNet =>
      have hcc : cidrContains ipNet p = false := by
        simpa [nicMatches, hc] using hmm
      rw [scanNics_cons_parse_some hc, hcc]
      simp only [if_neg (by simp : ¬ (false = true))]
      exact ih (fun m hm => h m (List.mem_cons_of_mem n hm))

theorem scanNics_bad {p : Nat} {bad : NetworkInterface}
    (post : List NetworkInterface) :
    ∀ {pre : List NetworkInterface},
      (∀ m ∈ pre, nicCIDROK m = true ∧ nicMatches p m = false) →
      nicCIDROK bad = false →
      scanNics (pre ++ bad :: post) p = Except.error "invalid CIDR" := by
  intro pre
  induction pre with
  | nil =>
    intro _ hbad
    have hc : parseCIDR bad.network.cidr = none := by
      cases hc : parseCIDR bad.network.cidr with
      | none => rfl
      | some c => simp [nicCIDROK, hc] at hbad
    exact scanNics_cons_parse_none hc
  | cons n rest ih =>
    intro h hbad
    obtain ⟨hok, hmm⟩ := h n (List.mem_cons_self n rest)
    cases hc : parseCIDR n.network.cidr with
    | none => simp [nicCIDROK, hc] at hok
    | some ipNet =>
      have hcc : cidrContains ipNet p = false := by
        simpa [nicMatches, hc] using hmm
      have heq : (n :: rest) ++ bad :: post = n :: (rest ++ bad :: post) := rfl
      rw [heq, scanNics_cons_parse_some hc, hcc]
      simp only [if_neg (by simp : ¬ (false = true))]
      exact ih (fun m hm => h m (List.mem_cons_of_mem n hm)) hbad

theorem pickNetworkInterface_fst (env : Env) (instanceID : Int)
    (prev : String) :
    (pickNetworkInterface env instanceID prev).1 = [Call.listNics instanceID] := by
  unfold pickNetworkInterface
  by_cases h : env.listNicsOK instanceID = true
  · rw [if_pos h]
    cases hp : parseIPv4 prev <;> simp [hp]
  · rw [if_neg h]

theorem pickNetworkInterface_ok {env : Env} {instanceID : Int} {prev : String}
    {nic : NetworkInterface}
    (h : (pickNetworkInterface env instanceID prev).2 = Except.ok nic) :
    env.listNicsOK instanceID = true ∧
      ∃ p, parseIPv4 prev = some p ∧ scanNics (env.nics instanceID) p = Except.ok nic := by
  unfold pickNetworkInterface at h
  by_cases hl : env.listNicsOK instanceID = true
  · rw [if_pos hl] at h
    cases hp : parseIPv4 prev with
    | none => rw [hp] at h; cases h
    | some p =>
      rw [hp] at h
      exact ⟨hl, p, rfl, h⟩
  · rw [if_neg hl] at h; cases h

theorem pickNextInstance_cons (env : Env) (id : Int) (rest : List Int)
    (u : Int) :
    pickNextInstance env (id :: rest) u =
      if id == u then pickNextInstance env rest u
      else
        match getServer env id with
        | Except.error e => ([Call.getServer id], Except.error e)
        | Except.ok server =>
          if server.status.id == serverStatusRunning then
            ([Call.getServer id], Except.ok id)
          else
            (Call.getServer id :: (pickNextInstance env rest u).1,
              (pickNextInstance env rest u).2) := by
  simp only [pickNextInstance]

theorem pickNextInstance_ok {env : Env} {u : Int} :
    ∀ {ids : List Int} {i : Int},
      (pickNextInstance env ids u).2 = Except.ok i →
      i ≠ u ∧ isRunningB env i = true ∧
        ∃ l1 l2, ids = l1 ++ i :: l2 ∧
          ∀ j ∈ l1, j = u ∨ isRunningB env j = false := by
  intro ids
  induction ids with
  | nil => intro i h; cases h
  | cons id rest ih =>
    intro i h
    rw [pickNextInstance_cons] at h
    by_cases hu : (id == u) = true
    · rw [if_pos hu] at h
      obtain ⟨h1, h2, l1, l2, hl, hall⟩ := ih h
      refine ⟨h1, h2, id :: l1, l2, by rw [hl]; rfl, ?_⟩
      intro j hj
      rcases List.mem_cons.mp hj with h' | h'
      · exact Or.inl (h' ▸ eq_of_beq hu)
      · exact hall j h'
    · rw [if_neg hu] at h
      have hne : id ≠ u := fun he => hu (by rw [he]; exact beq_self_eq_true u)
      cases hg : getServer env id with
      | error e => rw [hg] at h; cases h
      | ok server =>
        rw [hg] at h
        dsimp only at h
        by_cases hs : (server.status.id == serverStatusRunning) = true
        · rw [if_pos hs] at h
          cases h
          refine ⟨hne, ?_, [], rest, rfl, fun j hj => absurd hj (List.not_mem_nil j)⟩
          simp [isRunningB, (getServer_ok_find hg).1, hs]
        · rw [if_neg hs] at h
          obtain ⟨h1, h2, l1, l2, hl, hall⟩ := ih h
          refine ⟨h1, h2, id :: l1, l2, by rw [hl]; rfl, ?_⟩
          intro j hj
          rcases List.mem_cons.mp hj with h' | h'
          · subst h'
            refine Or.inr ?_
            simp only [isRunningB, (getServer_ok_find hg).1]
            cases hss : (server.status.id == serverStatusRunning)
            · rfl
            · exact absurd hss hs
          · exact hall j h'

theorem pickNextInstance_trace {env : Env} {u : Int} :
    ∀ {ids : List Int}, ∀ c ∈ (pickNextInstance env ids u).1,
      ∃ id, c = Call.getServer id := by
  intro ids
  induction ids with
  | nil => intro c hc; cases hc
  | cons id rest ih =>
    intro c hc
    rw [pickNextInstance_cons] at hc
    by_cases hu : (id == u) = true
    · rw [if_pos hu] at hc
      exact ih c hc
    · rw [if_neg hu] at hc
      cases hg : getServer env id with
      | error e =>
        rw [hg] at hc
        rcases List.mem_singleton.mp hc with h
        exact ⟨id, h⟩
      | ok server =>
        rw [hg] at hc
        dsimp only at hc
        by_cases hs : (server.status.id == serverStatusRunning) = true
        · rw [if_pos hs] at hc
          rcases List.mem_singleton.mp hc with h
          exact ⟨id, h⟩
        · rw [if_neg hs] at hc
          rcases List.mem_cons.mp hc with h | h
          · exact ⟨id, h⟩
          · exact ih c h

theorem pickNextInstance_countDetach (env : Env) (ids : List Int) (u : Int) :
    countDetach (pickNextInstance env ids u).1 = 0 := by
  rw [countDetach, List.countP_eq_zero]
  intro c hc
  obtain ⟨id, rfl⟩ := pickNextInstance_trace c hc
  simp [isDetach]

theorem pickNextInstance_countAttach (env : Env) (ids : List Int) (u : Int) :
    countAttach (pickNextInstance env ids u).1 = 0 := by
  rw [countAttach, List.countP_eq_zero]
  intro c hc
  obtain ⟨id, rfl⟩ := pickNextInstance_trace c hc
  simp [isAttach]

theorem pickNextInstance_noAttach (env : Env) (ids : List Int) (u : Int) :
    ((pickNextInstance env ids u).1.any (fun c => isAttach c)) = false := by
  rw [List.any_eq_false]
  intro c hc
  obtain ⟨id, rfl⟩ := pickNextInstance_trace c hc
  simp [isAttach]

/-- Under total `Get` calls, `pickNextInstance` computes exactly the first
entry of the list that differs from the unavailable instance and is running. -/
theorem pickNextInstance_eq_find {env : Env} {u : Int} :
    ∀ {ids : List Int},
      (∀ id ∈ ids, env.getOK id = true ∧
        (env.servers.find? (fun s => s.id == id)).isSome = true) →
      (pickNextInstance env ids u).2 =
        match ids.find? (fun id => (id != u) && isRunningB env id) with
        | some i => Except.ok i
        | none => Except.error "no available instance found" := by
  intro ids
  induction ids with
  | nil => intro _; rfl
  | cons id rest ih =>
    intro hget
    obtain ⟨hgo, hfs⟩ := hget id (List.mem_cons_self id rest)
    have hrest := fun j hj => hget j (List.mem_cons_of_mem id hj)
    rw [pickNextInstance_cons]
    by_cases hu : (id == u) = true
    · rw [if_pos hu]
      have hp : ((id != u) && isRunningB env id) = false := by
        simp [bne, hu]
      rw [List.find?_cons_of_neg _ (by simp [hp])]
      exact ih hrest
    · rw [if_neg hu]
      obtain ⟨server, hsrv⟩ := Option.isSome_iff_exists.mp hfs
      have hgs : getServer env id = Except.ok server := by
        simp [getServer, hgo, hsrv]
      rw [hgs]
      dsimp only
      have hrun : isRunningB env id = (server.status.id == serverStatusRunning) := by
        simp [isRunningB, hsrv]
      by_cases hs : (server.status.id == serverStatusRunning) = true
      · rw [if_pos hs]
        have hp : ((id != u) && isRunningB env id) = true := by
          simp [bne, hu, hrun, hs]
        rw [@List.find?_cons_of_pos Int (fun j => (j != u) && isRunningB env j) id rest hp]
      · rw [if_neg hs]
        have hp : ((id != u) && isRunningB env id) = false := by
          rw [hrun]
          cases hss : (server.status.id == serverStatusRunning)
          · simp
          · exact absurd hss hs
        rw [List.find?_cons_of_neg _ (by simp [hp])]
        exact ih hrest

/-! ### Lemmas for the peer-address variant -/

theorem filterPeers_not_banned {banned : String} :
    ∀ {peers : List String}, ∀ ip ∈ filterPeers peers banned, ip ≠ banned := by
  intro peers
  induction peers with
  | nil => intro ip h; cases h
  | cons x rest ih =>
    intro ip h
    by_cases hx : (x == banned) = true
    · rw [filterPeers, if_pos hx] at h
      exact ih ip h
    · rw [filterPeers, if_neg hx] at h
      rcases List.mem_cons.mp h with h' | h'
      · subst h'
        exact fun he => hx (by rw [he]; exact beq_self_eq_true banned)
      · exact ih ip h'

theorem scanServersPeers_cons (env : Env) (srv : Server) (rest : List Server)
    (peers : List String) :
    scanServersPeers env (srv :: rest) peers =
      if srv.status.id == serverStatusRunning then
        if env.listNicsOK srv.id then
          match (env.nics srv.id).find?
              (fun nic => peers.any (fun ip => nic.privateIP == ip)) with
          | some nic =>
            ([Call.listNics srv.id],
              Except.ok ⟨srv.id, srv.name, nic.id, nic.attachedElasticIP⟩)
          | none =>
            (Call.listNics srv.id :: (scanServersPeers env rest peers).1,
              (scanServersPeers env rest peers).2)
        else ([Call.listNics srv.id], Except.error "provider error")
      else scanServersPeers env rest peers := by
  simp only [scanServersPeers]

theorem scanServersPeers_ok {env : Env} {peers : List String} :
    ∀ {servers : List Server} {t : Target},
      (scanServersPeers env servers peers).2 = Except.ok t →
      ∃ srv nic, srv ∈ servers ∧ srv.status.id = serverStatusRunning ∧
        nic ∈ env.nics srv.id ∧
        t = ⟨srv.id, srv.name, nic.id, nic.attachedElasticIP⟩ ∧
        peers.any (fun ip => nic.privateIP == ip) = true := by
  intro servers
  induction servers with
  | nil => intro t h; cases h
  | cons srv rest ih =>
    intro t h
    rw [scanServersPeers_cons] at h
    by_cases hr : (srv.status.id == serverStatusRunning) = true
    · rw [if_pos hr] at h
      by_cases hl : env.listNicsOK srv.id = true
      · rw [if_pos hl] at h
        cases hf : (env.nics srv.id).find?
            (fun nic => peers.any (fun ip => nic.privateIP == ip)) with
        | some nic =>
          rw [hf] at h
          dsimp only at h
          cases h
          exact ⟨srv, nic, List.mem_cons_self srv rest, eq_of_beq hr,
            List.mem_of_find?_eq_some hf, rfl,
            @List.find?_some NetworkInterface
              (fun nic => peers.any (fun ip => nic.privateIP == ip)) nic
              (env.nics srv.id) hf⟩
        | none =>
          rw [hf] at h
          dsimp only at h
          obtain ⟨s, n, hm, h1, h2, h3, h4⟩ := ih h
          exact ⟨s, n, List.mem_cons_of_mem srv hm, h1, h2, h3, h4⟩
      · rw [if_neg hl] at h
        simp at h
    · rw [if_neg hr] at h
      obtain ⟨s, n, hm, h1, h2, h3, h4⟩ := ih h
      exact ⟨s, n, List.mem_cons_of_mem srv hm, h1, h2, h3, h4⟩

/-- Under total interface listings, the peers-variant scan computes exactly
the first interface — flattening running servers in provider-listing order —
whose private address is in the peer list. -/
theorem scanServersPeers_eq_flat {env : Env} {peers : List String} :
    ∀ {servers : List Server},
      (∀ s ∈ servers, s.status.id = serverStatusRunning →
        env.listNicsOK s.id = true) →
      (scanServersPeers env servers peers).2 =
        match ((servers.filter (fun s => s.status.id == serverStatusRunning)).flatMap
            (fun s => (env.nics s.id).map (fun nic => (s, nic)))).find?
            (fun sn => peers.any (fun ip => sn.2.privateIP == ip)) with
        | some sn =>
          Except.ok ⟨sn.1.id, sn.1.name, sn.2.id, sn.2.attachedElasticIP⟩
        | none => Except.error "no available instance found" := by
  intro servers
  induction servers with
  | nil => intro _; rfl
  | cons srv rest ih =>
    intro hn
    have hrest := fun s hs => hn s (List.mem_cons_of_mem srv hs)
    rw [scanServersPeers_cons]
    by_cases hr : (srv.status.id == serverStatusRunning) = true
    · rw [if_pos hr, if_pos (hn srv (List.mem_cons_self srv rest) (eq_of_beq hr)),
        @List.filter_cons_of_pos Server
          (fun s => s.status.id == serverStatusRunning) srv rest hr,
        List.flatMap_cons, List.find?_append, List.find?_map]
      cases hf : (env.nics srv.id).find?
          (fun nic => peers.any (fun ip => nic.privateIP == ip)) with
      | some nic =>
        dsimp only [Function.comp_def]
        rw [hf]
        simp
      | none =>
        dsimp only [Function.comp_def]
        rw [hf]
        simpa using ih hrest
    · rw [if_neg hr,
        @List.filter_cons_of_neg Server
          (fun s => s.status.id == serverStatusRunning) srv rest hr]
      exact ih hrest

/-! ### Fail-fast analysis of the `src/main.go` run -/

/-- A run fragment fails fast: on success every issued call succeeded, and on
failure either every issued call succeeded (a logical error such as
"not found") or the very last issued call is the one that failed. -/
def failFast {α : Type} (env : Env) (r : List Call × Except String α) : Prop :=
  (exceptOK r.2 = true → allOK env r.1) ∧
  (exceptOK r.2 = false →
    allOK env r.1 ∨
      ∃ pre c, r.1 = pre ++ [c] ∧ allOK env pre ∧ callOK env c = false)

theorem failFast_findElasticIPID (env : Env) (eip : String) :
    failFast env (findElasticIPID env eip) := by
  rw [failFast, findElasticIPID_fst]
  by_cases h : env.listEIPsOK = true
  · constructor
    · intro _ c hc
      rcases List.mem_singleton.mp hc with rfl
      exact h
    · intro _
      left
      intro c hc
      rcases List.mem_singleton.mp hc with rfl
      exact h
  · constructor
    · intro habs
      unfold findElasticIPID at habs
      rw [if_neg h] at habs
      cases habs
    · intro _
      right
      refine ⟨[], Call.listEIPs, rfl, allOK_nil env, ?_⟩
      simp only [callOK]
      cases hE : env.listEIPsOK
      · rfl
      · exact absurd hE h

theorem failFast_pickNextInstance (env : Env) (u : Int) :
    ∀ ids : List Int, failFast env (pickNextInstance env ids u) := by
  intro ids
  induction ids with
  | nil =>
    constructor
    · intro habs; cases habs
    · intro _; left; exact allOK_nil env
  | cons id rest ih =>
    rw [failFast, pickNextInstance_cons]
    by_cases hu : (id == u) = true
    · rw [if_pos hu]
      exact ih
    · rw [if_neg hu]
      cases hg : getServer env id with
      | error e =>
        constructor
        · intro habs; cases habs
        · intro _
          right
          exact ⟨[], Call.getServer id, rfl, allOK_nil env, getServer_err_callOK hg⟩
      | ok server =>
        dsimp only
        by_cases hs : (server.status.id == serverStatusRunning) = true
        · rw [if_pos hs]
          constructor
          · intro _ c hc
            rcases List.mem_singleton.mp hc with rfl
            exact getServer_ok_callOK hg
          · intro habs; cases habs
        · rw [if_neg hs]
          constructor
          · intro hok
            exact allOK_cons.mpr ⟨getServer_ok_callOK hg, ih.1 hok⟩
          · intro herr
            rcases ih.2 herr with hAll | ⟨pre, c, heq, hpre, hc⟩
            · left
              exact allOK_cons.mpr ⟨getServer_ok_callOK hg, hAll⟩
            · right
              refine ⟨Call.getServer id :: pre, c, by rw [heq]; rfl, ?_, hc⟩
              exact allOK_cons.mpr ⟨getServer_ok_callOK hg, hpre⟩

theorem failFast_pickNetworkInterface (env : Env) (instanceID : Int)
    (prev : String) : failFast env (pickNetworkInterface env instanceID prev) := by
  rw [failFast, pickNetworkInterface_fst]
  by_cases h : env.listNicsOK instanceID = true
  · constructor
    · intro _ c hc
      rcases List.mem_singleton.mp hc with rfl
      exact h
    · intro _
      left
      intro c hc
      rcases List.mem_singleton.mp hc with rfl
      exact h
  · constructor
    · intro habs
      unfold pickNetworkInterface at habs
      rw [if_neg h] at habs
      cases habs
    · intro _
      right
      refine ⟨[], Call.listNics instanceID, rfl, allOK_nil env, ?_⟩
      simp only [callOK]
      cases hE : env.listNicsOK instanceID
      · rfl
      · exact absurd hE h

theorem findElasticIPID_ok_listOK {env : Env} {eip : String} {e : ElasticIP}
    (h : (findElasticIPID env eip).2 = Except.ok e) : env.listEIPsOK = true := by
  unfold findElasticIPID at h
  by_cases hl : env.listEIPsOK = true
  · exact hl
  · rw [if_neg hl] at h
    cases h

/-- Exhaustive inventory of the control-flow paths of the `src/main.go` run,
with the trace and result each path produces. -/
theorem runInstanceIDs_cases (env : Env) (eip : String) (ids : List Int) :
    (∃ e, (findElasticIPID env eip).2 = Except.error e ∧
      runInstanceIDs env eip ids = ((findElasticIPID env eip).1, Except.error e)) ∨
    ∃ eIP, (findElasticIPID env eip).2 = Except.ok eIP ∧
      ((env.detachOK eIP.attachment.id eIP.id = false ∧
        runInstanceIDs env eip ids =
          ((findElasticIPID env eip).1 ++ [Call.detach eIP.attachment.id eIP.id],
            Except.error "provider error")) ∨
       (env.detachOK eIP.attachment.id eIP.id = true ∧
        ((∃ e, (pickNextInstance env ids eIP.attachment.id).2 = Except.error e ∧
           runInstanceIDs env eip ids =
             ((findElasticIPID env eip).1 ++ Call.detach eIP.attachment.id eIP.id ::
               (pickNextInstance env ids eIP.attachment.id).1, Except.error e)) ∨
         ∃ i, (pickNextInstance env ids eIP.attachment.id).2 = Except.ok i ∧
           ((∃ e, (pickNetworkInterface env i eIP.privateIP).2 = Except.error e ∧
              runInstanceIDs env eip ids =
                ((findElasticIPID env eip).1 ++ Call.detach eIP.attachment.id eIP.id ::
                  ((pickNextInstance env ids eIP.attachment.id).1 ++
                    (pickNetworkInterface env i eIP.privateIP).1), Except.error e)) ∨
            ∃ nic, (pickNetworkInterface env i eIP.privateIP).2 = Except.ok nic ∧
              ((nic.attachedElasticIP.publicIP = "" ∧
                runInstanceIDs env eip ids =
                  (((findElasticIPID env eip).1 ++ Call.detach eIP.attachment.id eIP.id ::
                    ((pickNextInstance env ids eIP.attachment.id).1 ++
                      (pickNetworkInterface env i eIP.privateIP).1)) ++
                    [Call.attach eIP.attachment.id eIP.id nic.id],
                    if env.attachOK eIP.attachment.id eIP.id nic.id = true then Except.ok ()
                    else Except.error "provider error")) ∨
               (nic.attachedElasticIP.publicIP ≠ "" ∧
                ((env.detachOK i nic.attachedElasticIP.id = false ∧
                  runInstanceIDs env eip ids =
                    (((findElasticIPID env eip).1 ++ Call.detach eIP.attachment.id eIP.id ::
                      ((pickNextInstance env ids eIP.attachment.id).1 ++
                        (pickNetworkInterface env i eIP.privateIP).1)) ++
                      [Call.detach i nic.attachedElasticIP.id],
                      Except.error "provider error")) ∨
                 (env.detachOK i nic.attachedElasticIP.id = true ∧
                  runInstanceIDs env eip ids =
                    ((((findElasticIPID env eip).1 ++ Call.detach eIP.attachment.id eIP.id ::
                      ((pickNextInstance env ids eIP.attachment.id).1 ++
                        (pickNetworkInterface env i eIP.privateIP).1)) ++
                      [Call.detach i nic.attachedElasticIP.id]) ++
                      [Call.attach eIP.attachment.id eIP.id nic.id],
                      if env.attachOK eIP.attachment.id eIP.id nic.id = true then Except.ok ()
                      else Except.error "provider error"))))))))) := by
  cases hF : (findElasticIPID env eip).2 with
  | error e =>
    left
    refine ⟨e, rfl, ?_⟩
    unfold runInstanceIDs
    dsimp only
    rw [hF]
  | ok eIP =>
    right
    refine ⟨eIP, rfl, ?_⟩
    by_cases hd : env.detachOK eIP.attachment.id eIP.id = true
    · right
      refine ⟨hd, ?_⟩
      cases hP : (pickNextInstance env ids eIP.attachment.id).2 with
      | error e2 =>
        left
        refine ⟨e2, rfl, ?_⟩
        unfold runInstanceIDs
        dsimp only
        rw [hF]
        dsimp only
        rw [if_pos hd, hP]
      | ok i =>
        right
        refine ⟨i, rfl, ?_⟩
        cases hQ : (pickNetworkInterface env i eIP.privateIP).2 with
        | error e3 =>
          left
          refine ⟨e3, rfl, ?_⟩
          unfold runInstanceIDs
          dsimp only
          rw [hF]
          dsimp only
          rw [if_pos hd, hP]
          dsimp only
          rw [hQ]
          dsimp only
          simp [List.cons_append, List.append_assoc]
        | ok nic =>
          right
          refine ⟨nic, rfl, ?_⟩
          by_cases ho : (nic.attachedElasticIP.publicIP == "") = true
          · left
            refine ⟨eq_of_beq ho, ?_⟩
            unfold runInstanceIDs attachStep
            dsimp only
            rw [hF]
            dsimp only
            rw [if_pos hd, hP]
            dsimp only
            rw [hQ]
            dsimp only
            rw [if_pos ho]
            by_cases ha : env.attachOK eIP.attachment.id eIP.id nic.id = true
            · simp [ha, List.cons_append, List.append_assoc]
            · simp [ha, List.cons_append, List.append_assoc]
          · right
            have hne : nic.attachedElasticIP.publicIP ≠ "" :=
              fun he => ho (by rw [he]; exact beq_self_eq_true "")
            refine ⟨hne, ?_⟩
            by_cases hd2 : env.detachOK i nic.attachedElasticIP.id = true
            · right
              refine ⟨hd2, ?_⟩
              unfold runInstanceIDs attachStep
              dsimp only
              rw [hF]
              dsimp only
              rw [if_pos hd, hP]
              dsimp only
              rw [hQ]
              dsimp only
              rw [if_neg ho, if_pos hd2]
              by_cases ha : env.attachOK eIP.attachment.id eIP.id nic.id = true
              · simp [ha, List.cons_append, List.append_assoc]
              · simp [ha, List.cons_append, List.append_assoc]
            · left
              have hd2' : env.detachOK i nic.attachedElasticIP.id = false := by
                cases hdd : env.detachOK i nic.attachedElasticIP.id
                · rfl
                · exact absurd hdd hd2
              refine ⟨hd2', ?_⟩
              unfold runInstanceIDs
              dsimp only
              rw [hF]
              dsimp only
              rw [if_pos hd, hP]
              dsimp only
              rw [hQ]
              dsimp only
              rw [if_neg ho, if_neg hd2]
              simp [List.cons_append, List.append_assoc]
    · left
      have hd' : env.detachOK eIP.attachment.id eIP.id = false := by
        cases hdd : env.detachOK eIP.attachment.id eIP.id
        · rfl
        · exact absurd hdd hd
      refine ⟨hd', ?_⟩
      unfold runInstanceIDs
      dsimp only
      rw [hF]
      dsimp only
      rw [if_neg hd]

@[simp] theorem exceptOK_ok {α : Type} (a : α) :
    exceptOK (Except.ok a : Except String α) = true := rfl

@[simp] theorem exceptOK_error {α : Type} (e : String) :
    exceptOK (Except.error e : Except String α) = false := rfl

@[simp] theorem callOK_listEIPs (env : Env) :
    callOK env Call.listEIPs = env.listEIPsOK := by simp [callOK]

@[simp] theorem callOK_listServers (env : Env) :
    callOK env Call.listServers = env.listServersOK := by simp [callOK]

@[simp] theorem callOK_listNics (env : Env) (i : Int) :
    callOK env (Call.listNics i) = env.listNicsOK i := by simp [callOK]

@[simp] theorem callOK_detach (env : Env) (a b : Int) :
    callOK env (Call.detach a b) = env.detachOK a b := by simp [callOK]

@[simp] theorem callOK_attach (env : Env) (a b c : Int) :
    callOK env (Call.attach a b c) = env.attachOK a b c := by simp [callOK]

theorem allOK_singleton {env : Env} {c : Call} (h : callOK env c = true) :
    allOK env [c] := by
  intro x hx
  rcases List.mem_singleton.mp hx with rfl
  exact h

/-- The full `src/main.go` run fails fast, and a successful run's last issued
call is the attach. -/
theorem runInstanceIDs_failFast (env : Env) (eip : String) (ids : List Int) :
    failFast env (runInstanceIDs env eip ids) ∧
    (exceptOK (runInstanceIDs env eip ids).2 = true →
      ∃ pre a b n, (runInstanceIDs env eip ids).1 = pre ++ [Call.attach a b n]) := by
  rcases runInstanceIDs_cases env eip ids with ⟨e, hF, hrun⟩ | ⟨eIP, hF, hbr⟩
  · constructor
    · rw [hrun]
      have h0 := failFast_findElasticIPID env eip
      rw [(@Prod.mk.eta _ _ (findElasticIPID env eip)).symm, hF] at h0
      exact h0
    · intro h
      rw [hrun] at h
      simp at h
  · have hLok : env.listEIPsOK = true := findElasticIPID_ok_listOK hF
    have hl1 : allOK env (findElasticIPID env eip).1 := by
      rw [findElasticIPID_fst]
      exact allOK_singleton (by simp [hLok])
    rcases hbr with ⟨hd, hrun⟩ | ⟨hd, hbr2⟩
    · constructor
      · constructor
        · intro h
          rw [hrun] at h
          simp at h
        · intro _
          right
          refine ⟨(findElasticIPID env eip).1, Call.detach eIP.attachment.id eIP.id,
            by rw [hrun], hl1, by simp [hd]⟩
      · intro h
        rw [hrun] at h
        simp at h
    · have hdc : callOK env (Call.detach eIP.attachment.id eIP.id) = true := by simp [hd]
      rcases hbr2 with ⟨e2, hP, hrun⟩ | ⟨i, hP, hbr3⟩
      · -- pickNextInstance failed
        constructor
        · constructor
          · intro h
            rw [hrun] at h
            simp at h
          · intro _
            rcases (failFast_pickNextInstance env eIP.attachment.id ids).2
                (by rw [hP]; rfl) with hAll | ⟨pre, c, heq, hpre, hc⟩
            · left
              rw [hrun]
              exact allOK_append.mpr ⟨hl1, allOK_cons.mpr ⟨hdc, hAll⟩⟩
            · right
              refine ⟨(findElasticIPID env eip).1 ++
                Call.detach eIP.attachment.id eIP.id :: pre, c, ?_, ?_, hc⟩
              · rw [hrun, heq]
                simp
              · exact allOK_append.mpr ⟨hl1, allOK_cons.mpr ⟨hdc, hpre⟩⟩
        · intro h
          rw [hrun] at h
          simp at h
      · have hp1 : allOK env (pickNextInstance env ids eIP.attachment.id).1 :=
          (failFast_pickNextInstance env eIP.attachment.id ids).1 (by rw [hP]; rfl)
        rcases hbr3 with ⟨e3, hQ, hrun⟩ | ⟨nic, hQ, hbr4⟩
        · -- pickNetworkInterface failed
          constructor
          · constructor
            · intro h
              rw [hrun] at h
              simp at h
            · intro _
              by_cases hln : env.listNicsOK i = true
              · left
                rw [hrun, pickNetworkInterface_fst]
                exact allOK_append.mpr ⟨hl1, allOK_cons.mpr ⟨hdc,
                  allOK_append.mpr ⟨hp1, allOK_singleton (by simp [hln])⟩⟩⟩
              · right
                refine ⟨(findElasticIPID env eip).1 ++
                  Call.detach eIP.attachment.id eIP.id ::
                    (pickNextInstance env ids eIP.attachment.id).1,
                  Call.listNics i, ?_, ?_, ?_⟩
                · rw [hrun, pickNetworkInterface_fst]
                  simp
                · exact allOK_append.mpr ⟨hl1, allOK_cons.mpr ⟨hdc, hp1⟩⟩
                · simp
                  cases hl : env.listNicsOK i
                  · rfl
                  · exact absurd hl hln
          · intro h
            rw [hrun] at h
            simp at h
        · have hln : env.listNicsOK i = true := (pickNetworkInterface_ok hQ).1
          have hq1 : allOK env (pickNetworkInterface env i eIP.privateIP).1 := by
            rw [pickNetworkInterface_fst]
            exact allOK_singleton (by simp [hln])
          have hbase : allOK env ((findElasticIPID env eip).1 ++
              Call.detach eIP.attachment.id eIP.id ::
                ((pickNextInstance env ids eIP.attachment.id).1 ++
                  (pickNetworkInterface env i eIP.privateIP).1)) :=
            allOK_append.mpr ⟨hl1, allOK_cons.mpr ⟨hdc, allOK_append.mpr ⟨hp1, hq1⟩⟩⟩
          rcases hbr4 with ⟨hocc, hrun⟩ | ⟨hocc, hbr5⟩
          · -- unoccupied target interface: straight to attach
            by_cases ha : env.attachOK eIP.attachment.id eIP.id nic.id = true
            · constructor
              · constructor
                · intro _
                  rw [hrun]
                  exact allOK_append.mpr ⟨hbase, allOK_singleton (by simp [ha])⟩
                · intro h
                  rw [hrun] at h
                  simp [ha] at h
              · intro _
                exact ⟨_, eIP.attachment.id, eIP.id, nic.id, by rw [hrun]⟩
            · constructor
              · constructor
                · intro h
                  rw [hrun] at h
                  simp [ha] at h
                · intro _
                  right
                  refine ⟨_, Call.attach eIP.attachment.id eIP.id nic.id,
                    by rw [hrun], hbase, ?_⟩
                  simp
                  cases haa : env.attachOK eIP.attachment.id eIP.id nic.id
                  · rfl
                  · exact absurd haa ha
              · intro h
                rw [hrun] at h
                simp [ha] at h
          · rcases hbr5 with ⟨hd2, hrun⟩ | ⟨hd2, hrun⟩
            · -- occupying elastic IP could not be detached
              constructor
              · constructor
                · intro h
                  rw [hrun] at h
                  simp at h
                · intro _
                  right
                  exact ⟨_, Call.detach i nic.attachedElasticIP.id,
                    by rw [hrun], hbase, by simp [hd2]⟩
              · intro h
                rw [hrun] at h
                simp at h
            · -- occupying elastic IP detached, then attach
              have hdc2 : callOK env (Call.detach i nic.attachedElasticIP.id) = true := by
                simp [hd2]
              have hbase2 : allOK env (((findElasticIPID env eip).1 ++
                  Call.detach eIP.attachment.id eIP.id ::
                    ((pickNextInstance env ids eIP.attachment.id).1 ++
                      (pickNetworkInterface env i eIP.privateIP).1)) ++
                  [Call.detach i nic.attachedElasticIP.id]) :=
                allOK_append.mpr ⟨hbase, allOK_singleton hdc2⟩
              by_cases ha : env.attachOK eIP.attachment.id eIP.id nic.id = true
              · constructor
                · constructor
                  · intro _
                    rw [hrun]
                    exact allOK_append.mpr ⟨hbase2, allOK_singleton (by simp [ha])⟩
                  · intro h
                    rw [hrun] at h
                    simp [ha] at h
                · intro _
                  exact ⟨_, eIP.attachment.id, eIP.id, nic.id, by rw [hrun]⟩
              · constructor
                · constructor
                  · intro h
                    rw [hrun] at h
                    simp [ha] at h
                  · intro _
                    right
                    refine ⟨_, Call.attach eIP.attachment.id eIP.id nic.id,
                      by rw [hrun], hbase2, ?_⟩
                    simp
                    cases haa : env.attachOK eIP.attachment.id eIP.id nic.id
                    · rfl
                    · exact absurd haa ha
                · intro h
                  rw [hrun] at h
                  simp [ha] at h

theorem pickNextInstance_all_failed {env : Env} {failed : Int} :
    ∀ {ids : List Int}, (∀ x ∈ ids, x = failed) →
      (pickNextInstance env ids failed).2 =
        Except.error "no available instance found" := by
  intro ids
  induction ids with
  | nil => intro _; rfl
  | cons id rest ih =>
    intro hall
    have hh : id = failed := hall id (List.mem_cons_self id rest)
    rw [pickNextInstance_cons, if_pos (by rw [hh]; exact beq_self_eq_true failed)]
    exact ih (fun x hx => hall x (List.mem_cons_of_mem id hx))

/-! ### The claims -/

/-- C1 counterexample: in the `src/main.go` (instance-ID) variant there is no
idempotency short-circuit. In `envC1` the elastic IP's current private
address `10.0.0.3` equals the private address of the interface the selection
picks, yet the run still issues one detach and one attach call (instead of
the zero calls the claim requires of every entry-point variant). -/
theorem c1_counterexample :
    (pickNextInstance envC1 [1, 2] eipC1.attachment.id).2 = Except.ok 2 ∧
    (pickNetworkInterface envC1 2 eipC1.privateIP).2 = Except.ok nicC1 ∧
    nicC1.privateIP = eipC1.privateIP ∧
    countDetach (runInstanceIDs envC1 "198.51.100.7" [1, 2]).1 = 1 ∧
    countAttach (runInstanceIDs envC1 "198.51.100.7" [1, 2]).1 = 1 ∧
    (runInstanceIDs envC1 "198.51.100.7" [1, 2]).2 = Except.ok () := by
  refine ⟨rfl, rfl, rfl, by decide, by decide, rfl⟩

/-- C1 (amended): only the single-private-IP variant has the idempotency
short-circuit: when the located elastic IP's current private address equals
the requested one, that run exits successfully with zero detach and zero
attach calls. -/
theorem c1_amended_idempotent_noop (env : Env) (eipStr ip : String)
    (e : ElasticIP)
    (hfind : (findElasticIPID env eipStr).2 = Except.ok e)
    (heq : e.privateIP = ip) :
    (runPrivateIP env eipStr ip).2 = Except.ok () ∧
    countDetach (runPrivateIP env eipStr ip).1 = 0 ∧
    countAttach (runPrivateIP env eipStr ip).1 = 0 := by
  have hrun : runPrivateIP env eipStr ip =
      ((findElasticIPID env eipStr).1, Except.ok ()) := by
    unfold runPrivateIP
    dsimp only
    rw [hfind]
    dsimp only
    rw [if_pos (by rw [heq]; exact beq_self_eq_true ip)]
  rw [hrun, findElasticIPID_fst]
  exact ⟨rfl, by decide, by decide⟩

theorem c1_amended_idempotent_noop_witness :
    (runPrivateIP envC1A "198.51.100.7" "10.0.0.3").2 = Except.ok () ∧
    countDetach (runPrivateIP envC1A "198.51.100.7" "10.0.0.3").1 = 0 ∧
    countAttach (runPrivateIP envC1A "198.51.100.7" "10.0.0.3").1 = 0 :=
  c1_amended_idempotent_noop envC1A "198.51.100.7" "10.0.0.3"
    ⟨10, "198.51.100.7", "10.0.0.3", ⟨3, "c"⟩⟩ rfl rfl

/-- C2 counterexample: in `envC2` the claim's selection rule (first candidate
that is running AND has an interface whose subnet contains the previous
address) picks instance 3, but the code picks the first running instance 2
unconditionally and then fails because none of instance 2's interfaces
matches — it never reaches instance 3. -/
theorem c2_counterexample :
    specFirstEligible envC2 [2, 3] 1 "10.0.0.1" = some 3 ∧
    (pickNextInstance envC2 [2, 3] 1).2 = Except.ok 2 ∧
    (pickNetworkInterface envC2 2 "10.0.0.1").2 =
      Except.error "no network interface in same network as previous private ip found" := by
  refine ⟨rfl, rfl, rfl⟩

/-- C2 (amended): the chosen instance is the first entry of the caller's list
(excluding the failed identifier) that is running — regardless of its
interfaces — so reordering the list changes the choice accordingly; then the
chosen interface is the first of that instance's interfaces whose subnet
contains the previously-attached private address. -/
theorem c2_amended_selection_order (env : Env) (ids : List Int) (failed : Int)
    (prevIP : String)
    (hget : ∀ id ∈ ids, env.getOK id = true ∧
      (env.servers.find? (fun s => s.id == id)).isSome = true) :
    ((pickNextInstance env ids failed).2 =
      match ids.find? (fun id => (id != failed) && isRunningB env id) with
      | some i => Except.ok i
      | none => Except.error "no available instance found") ∧
    (∀ i nic, (pickNetworkInterface env i prevIP).2 = Except.ok nic →
      ∃ p l1 l2, parseIPv4 prevIP = some p ∧
        env.nics i = l1 ++ nic :: l2 ∧ nicMatches p nic = true ∧
        ∀ m ∈ l1, nicCIDROK m = true ∧ nicMatches p m = false) := by
  refine ⟨pickNextInstance_eq_find hget, ?_⟩
  intro i nic h
  obtain ⟨hln, p, hp, hscan⟩ := pickNetworkInterface_ok h
  obtain ⟨hm, l1, l2, hl, hall⟩ := scanNics_ok hscan
  exact ⟨p, l1, l2, hp, hl, hm, hall⟩

theorem c2_amended_selection_order_witness :
    ((pickNextInstance envC1 [1, 2] 1).2 =
      match ([1, 2] : List Int).find? (fun id => (id != 1) && isRunningB envC1 id) with
      | some i => Except.ok i
      | none => Except.error "no available instance found") ∧
    (∀ i nic, (pickNetworkInterface envC1 i "10.0.0.3").2 = Except.ok nic →
      ∃ p l1 l2, parseIPv4 "10.0.0.3" = some p ∧
        envC1.nics i = l1 ++ nic :: l2 ∧ nicMatches p nic = true ∧
        ∀ m ∈ l1, nicCIDROK m = true ∧ nicMatches p m = false) :=
  c2_amended_selection_order envC1 [1, 2] 1 "10.0.0.3" (by decide)

/-- C3: in the instance-ID variant the first running instance of the list
(skipping the failed identifier) wins unconditionally: a successful pick is a
non-failed running entry all of whose predecessors were skipped or not
running; if none of the winner's interfaces matches, the selection fails with
the no-eligible-target error (no fallback to later candidates); and a list
consisting only of the failed identifier fails with the no-eligible error. -/
theorem c3_first_running_wins (env : Env) (ids : List Int) (failed : Int)
    (prevIP : String) :
    (∀ i, (pickNextInstance env ids failed).2 = Except.ok i →
      i ≠ failed ∧ isRunningB env i = true ∧
        ∃ l1 l2, ids = l1 ++ i :: l2 ∧
          ∀ j ∈ l1, j = failed ∨ isRunningB env j = false) ∧
    (∀ i p, (pickNextInstance env ids failed).2 = Except.ok i →
      env.listNicsOK i = true → parseIPv4 prevIP = some p →
      (∀ m ∈ env.nics i, nicCIDROK m = true ∧ nicMatches p m = false) →
      (pickNetworkInterface env i prevIP).2 =
        Except.error "no network interface in same network as previous private ip found") ∧
    ((∀ x ∈ ids, x = failed) →
      (pickNextInstance env ids failed).2 =
        Except.error "no available instance found") := by
  refine ⟨fun i h => pickNextInstance_ok h, ?_, fun h => pickNextInstance_all_failed h⟩
  intro i p _ hln hp hall
  have hscan := scanNics_none (p := p) hall
  simp [pickNetworkInterface, hln, hp, hscan]

theorem c3_first_running_wins_witness :
    ((2 : Int) ≠ 1 ∧ isRunningB envC1 2 = true ∧
      ∃ l1 l2, ([1, 2] : List Int) = l1 ++ 2 :: l2 ∧
        ∀ j ∈ l1, j = 1 ∨ isRunningB envC1 j = false) ∧
    (pickNetworkInterface envC2 2 "10.0.0.1").2 =
      Except.error "no network interface in same network as previous private ip found" ∧
    (pickNextInstance envC1 [1] 1).2 =
      Except.error "no available instance found" :=
  ⟨(c3_first_running_wins envC1 [1, 2] 1 "10.0.0.3").1 2 rfl,
   (c3_first_running_wins envC2 [2, 3] 1 "10.0.0.1").2.1 2 167772161 rfl rfl rfl
     (by decide),
   (c3_first_running_wins envC1 [1] 1 "10.0.0.3").2.2 (by decide)⟩

/-- C6 is a code bug: with the elastic IP unattached (empty private address,
zero attachment) and a healthy running candidate, re-running the instance-ID
variant does not recover — it issues the detach against the zero attachment
and then aborts with "invalid private IP" before any attach, leaving the IP
unattached, where the spec requires the re-run to tolerate the unattached
state and retry the attach. -/
theorem c6_unattached_run_aborts :
    (runInstanceIDs envC6 "198.51.100.7" [2]).2 =
      Except.error "invalid private IP" ∧
    countAttach (runInstanceIDs envC6 "198.51.100.7" [2]).1 = 0 ∧
    Call.detach 0 10 ∈ (runInstanceIDs envC6 "198.51.100.7" [2]).1 := by
  refine ⟨rfl, by decide, by decide⟩

/-- C7: the Locator issues exactly the one (unfiltered) listing call and no
detach or attach; a successful result is the first listed elastic IP whose
public address equals the input; it fails with the not-found error exactly
when no listed elastic IP carries that public address. -/
theorem c7_locator_first_match (env : Env) (eip : String)
    (h : env.listEIPsOK = true) :
    (findElasticIPID env eip).1 = [Call.listEIPs] ∧
    countDetach (findElasticIPID env eip).1 = 0 ∧
    countAttach (findElasticIPID env eip).1 = 0 ∧
    (∀ e, (findElasticIPID env eip).2 = Except.ok e →
      e.publicIP = eip ∧ ∃ l1 l2, env.eips = l1 ++ e :: l2 ∧
        ∀ x ∈ l1, x.publicIP ≠ eip) ∧
    ((findElasticIPID env eip).2 = Except.error "elastic ip not found" ↔
      ∀ x ∈ env.eips, x.publicIP ≠ eip) := by
  refine ⟨findElasticIPID_fst env eip, ?_, ?_, ?_, ?_⟩
  · rw [findElasticIPID_fst]
    decide
  · rw [findElasticIPID_fst]
    decide
  · intro e he
    unfold findElasticIPID at he
    rw [if_pos h] at he
    cases hf : env.eips.find? (fun item => item.publicIP == eip) with
    | none =>
      rw [hf] at he
      simp at he
    | some item =>
      rw [hf] at he
      dsimp only at he
      cases he
      obtain ⟨hpi, l1, l2, hl, hall⟩ := find_eq_some_split _ _ _ hf
      refine ⟨eq_of_beq hpi, l1, l2, hl, ?_⟩
      intro x hx hpub
      have := hall x hx
      rw [hpub] at this
      rw [beq_self_eq_true eip] at this
      cases this
  · constructor
    · intro he x hx hpub
      unfold findElasticIPID at he
      rw [if_pos h] at he
      cases hf : env.eips.find? (fun item => item.publicIP == eip) with
      | some item =>
        rw [hf] at he
        simp at he
      | none =>
        have := List.find?_eq_none.mp hf x hx
        exact this (by rw [hpub]; exact beq_self_eq_true eip)
    · intro hall
      have hf : env.eips.find? (fun item => item.publicIP == eip) = none :=
        List.find?_eq_none.mpr (fun x hx hbeq => hall x hx (eq_of_beq hbeq))
      simp [findElasticIPID, h, hf]

theorem c7_locator_first_match_witness :
    envC1.listEIPsOK = true ∧
    (findElasticIPID envC1 "198.51.100.7").1 = [Call.listEIPs] ∧
    (∀ e, (findElasticIPID envC1 "198.51.100.7").2 = Except.ok e →
      e.publicIP = "198.51.100.7" ∧ ∃ l1 l2, envC1.eips = l1 ++ e :: l2 ∧
        ∀ x ∈ l1, x.publicIP ≠ "198.51.100.7") :=
  ⟨rfl, (c7_locator_first_match envC1 "198.51.100.7" rfl).1,
    (c7_locator_first_match envC1 "198.51.100.7" rfl).2.2.2.1⟩

/-- C9: during subnet-based interface selection, reaching an interface whose
subnet CIDR does not parse aborts the whole selection with the
"invalid CIDR" error — the interface is not skipped, no matter what
interfaces follow it. -/
theorem c9_invalid_cidr_fatal (env : Env) (instanceID : Int) (prevIP : String)
    (p : Nat) (pre : List NetworkInterface) (bad : NetworkInterface)
    (post : List NetworkInterface)
    (hln : env.listNicsOK instanceID = true)
    (hp : parseIPv4 prevIP = some p)
    (hnics : env.nics instanceID = pre ++ bad :: post)
    (hpre : ∀ m ∈ pre, nicCIDROK m = true ∧ nicMatches p m = false)
    (hbad : nicCIDROK bad = false) :
    (pickNetworkInterface env instanceID prevIP).2 =
      Except.error "invalid CIDR" := by
  have hmain : (pickNetworkInterface env instanceID prevIP).2 =
      scanNics (env.nics instanceID) p := by
    simp [pickNetworkInterface, hln, hp]
  rw [hmain, hnics]
  exact scanNics_bad post hpre hbad

theorem c9_invalid_cidr_fatal_witness :
    (pickNetworkInterface envC9 5 "10.0.0.1").2 = Except.error "invalid CIDR" :=
  c9_invalid_cidr_fatal envC9 5 "10.0.0.1" 167772161 []
    ⟨51, "10.9.9.9", ⟨"not-a-cidr"⟩, emptyEIP⟩
    [⟨52, "10.0.0.9", ⟨"10.0.0.0/24"⟩, emptyEIP⟩]
    rfl rfl rfl (by decide) (by decide)

/-- C10: when the located elastic IP's recorded private address does not
parse (in particular the empty sentinel of an unattached IP), the instance-ID
variant aborts inside `pickNetworkInterface` with "invalid private IP",
issues no attach call, and has by then already issued the unconditional
detach of the elastic IP. -/
theorem c10_unparsable_private_ip (env : Env) (eip : String) (ids : List Int)
    (e : ElasticIP) (i : Int)
    (hfind : (findElasticIPID env eip).2 = Except.ok e)
    (hparse : parseIPv4 e.privateIP = none)
    (hdet : env.detachOK e.attachment.id e.id = true)
    (hpick : (pickNextInstance env ids e.attachment.id).2 = Except.ok i)
    (hln : env.listNicsOK i = true) :
    (pickNetworkInterface env i e.privateIP).2 =
      Except.error "invalid private IP" ∧
    (runInstanceIDs env eip ids).2 = Except.error "invalid private IP" ∧
    Call.detach e.attachment.id e.id ∈ (runInstanceIDs env eip ids).1 ∧
    countAttach (runInstanceIDs env eip ids).1 = 0 := by
  have hnic : (pickNetworkInterface env i e.privateIP).2 =
      Except.error "invalid private IP" := by
    simp [pickNetworkInterface, hln, hparse]
  refine ⟨hnic, ?_⟩
  rcases runInstanceIDs_cases env eip ids with ⟨e', hF, hrun⟩ | ⟨eIP, hF, hbr⟩
  · rw [hfind] at hF
    cases hF
  · rw [hfind] at hF
    injection hF with hEq
    subst hEq
    rcases hbr with ⟨hd, _⟩ | ⟨hd, hbr2⟩
    · rw [hdet] at hd
      cases hd
    · rcases hbr2 with ⟨e2, hP, _⟩ | ⟨i', hP, hbr3⟩
      · rw [hpick] at hP
        cases hP
      · rw [hpick] at hP
        injection hP with hEq2
        subst hEq2
        rcases hbr3 with ⟨e3, hQ, hrun⟩ | ⟨nic, hQ, _⟩
        · rw [hnic] at hQ
          injection hQ with hEq3
          subst hEq3
          refine ⟨by rw [hrun], ?_, ?_⟩
          · rw [hrun]
            exact List.mem_append_right _ (List.mem_cons_self _ _)
          · rw [hrun, findElasticIPID_fst, pickNetworkInterface_fst]
            have hpz := pickNextInstance_countAttach env ids e.attachment.id
            rw [countAttach] at hpz
            simp only [isAttach] at hpz
            simp only [countAttach, List.countP_append, List.countP_cons,
              List.countP_nil, isAttach, hpz]
            simp
        · rw [hnic] at hQ
          cases hQ

theorem c10_unparsable_private_ip_witness :
    (pickNetworkInterface envC6 2 "").2 = Except.error "invalid private IP" ∧
    (runInstanceIDs envC6 "198.51.100.7" [2]).2 =
      Except.error "invalid private IP" ∧
    Call.detach (0 : Int) (10 : Int) ∈ (runInstanceIDs envC6 "198.51.100.7" [2]).1 ∧
    countAttach (runInstanceIDs envC6 "198.51.100.7" [2]).1 = 0 :=
  c10_unparsable_private_ip envC6 "198.51.100.7" [2]
    ⟨10, "198.51.100.7", "", ⟨0, ""⟩⟩ 2 rfl rfl rfl rfl rfl

/-- C4: in the peer-address variant the previously-attached private address
is removed from the peer list before matching (even when repeated), so a
selected interface's private address is never the failed address; and the
selection scans running instances in provider-listing order (not peer-list
order), returning the first interface whose private address equals some
remaining peer address. -/
theorem c4_peer_filter_selection (env : Env) (peers : List String)
    (banned : String)
    (hs : env.listServersOK = true)
    (hn : ∀ s ∈ env.servers, s.status.id = serverStatusRunning →
      env.listNicsOK s.id = true) :
    (∀ ip ∈ filterPeers peers banned, ip ≠ banned) ∧
    (∀ t, (pickFailOverTarget env (filterPeers peers banned)).2 = Except.ok t →
      ∃ srv nic, srv ∈ env.servers ∧ srv.status.id = serverStatusRunning ∧
        nic ∈ env.nics srv.id ∧ t.instanceID = srv.id ∧
        t.networkInterfaceID = nic.id ∧
        (filterPeers peers banned).any (fun ip => nic.privateIP == ip) = true ∧
        nic.privateIP ≠ banned) ∧
    ((pickFailOverTarget env (filterPeers peers banned)).2 =
      match ((env.servers.filter
          (fun s => s.status.id == serverStatusRunning)).flatMap
          (fun s => (env.nics s.id).map (fun nic => (s, nic)))).find?
          (fun sn => (filterPeers peers banned).any
            (fun ip => sn.2.privateIP == ip)) with
      | some sn => Except.ok ⟨sn.1.id, sn.1.name, sn.2.id, sn.2.attachedElasticIP⟩
      | none => Except.error "no available instance found") := by
  have hpick : (pickFailOverTarget env (filterPeers peers banned)).2 =
      (scanServersPeers env env.servers (filterPeers peers banned)).2 := by
    simp [pickFailOverTarget, hs]
  refine ⟨fun ip h => filterPeers_not_banned ip h, ?_, ?_⟩
  · intro t ht
    rw [hpick] at ht
    obtain ⟨srv, nic, hm, h1, h2, h3, h4⟩ := scanServersPeers_ok ht
    subst h3
    refine ⟨srv, nic, hm, h1, h2, rfl, rfl, h4, ?_⟩
    obtain ⟨ip, hip, hbeq⟩ := List.any_eq_true.mp h4
    rw [eq_of_beq hbeq]
    exact filterPeers_not_banned ip hip
  · rw [hpick]
    exact scanServersPeers_eq_flat hn

theorem c4_peer_filter_selection_witness :
    (∀ ip ∈ filterPeers ["10.0.0.1", "10.0.0.2", "10.0.0.1"] "10.0.0.1",
      ip ≠ "10.0.0.1") ∧
    (∀ t, (pickFailOverTarget envC4
        (filterPeers ["10.0.0.1", "10.0.0.2", "10.0.0.1"] "10.0.0.1")).2 =
        Except.ok t →
      ∃ srv nic, srv ∈ envC4.servers ∧ srv.status.id = serverStatusRunning ∧
        nic ∈ envC4.nics srv.id ∧ t.instanceID = srv.id ∧
        t.networkInterfaceID = nic.id ∧
        (filterPeers ["10.0.0.1", "10.0.0.2", "10.0.0.1"] "10.0.0.1").any
          (fun ip => nic.privateIP == ip) = true ∧
        nic.privateIP ≠ "10.0.0.1") :=
  ⟨(c4_peer_filter_selection envC4 ["10.0.0.1", "10.0.0.2", "10.0.0.1"]
      "10.0.0.1" rfl (by decide)).1,
   (c4_peer_filter_selection envC4 ["10.0.0.1", "10.0.0.2", "10.0.0.1"]
      "10.0.0.1" rfl (by decide)).2.1⟩

/-- C5: in the `src/main.go` run, assuming each interface's occupying elastic
IP is recorded as attached to the owning instance, every run that reaches the
attach call satisfies: when the selected interface is unoccupied there is
exactly one detach (the main one, no prepare detach); when occupied, the
occupying elastic IP differs from the main one and the trace is exactly
main-detach, then the prepare detach of the occupant, then the attach — the
prepare detach strictly after the main detach and strictly before the
attach. -/
theorem c5_prepare_detach_ordering (env : Env) (eipStr : String)
    (ids : List Int)
    (hcons : ∀ i : Int, ∀ nic ∈ env.nics i,
      nic.attachedElasticIP.publicIP ≠ "" →
        nic.attachedElasticIP.attachment.id = i)
    (hatt : ((runInstanceIDs env eipStr ids).1.any (fun c => isAttach c)) = true) :
    ∃ e i nic,
      (findElasticIPID env eipStr).2 = Except.ok e ∧
      (pickNextInstance env ids e.attachment.id).2 = Except.ok i ∧
      (pickNetworkInterface env i e.privateIP).2 = Except.ok nic ∧
      i ≠ e.attachment.id ∧
      ((nic.attachedElasticIP.publicIP = "" ∧
        countDetach (runInstanceIDs env eipStr ids).1 = 1) ∨
       (nic.attachedElasticIP.publicIP ≠ "" ∧ nic.attachedElasticIP ≠ e ∧
        countDetach (runInstanceIDs env eipStr ids).1 = 2 ∧
        ∃ l1 l2 l3, (runInstanceIDs env eipStr ids).1 =
          l1 ++ Call.detach e.attachment.id e.id ::
            (l2 ++ Call.detach i nic.attachedElasticIP.id ::
              (l3 ++ [Call.attach e.attachment.id e.id nic.id])) ∧
          countDetach l1 = 0 ∧ countDetach l2 = 0 ∧ countDetach l3 = 0)) := by
  have hpNoAtt := fun u => pickNextInstance_noAttach env ids u
  rcases runInstanceIDs_cases env eipStr ids with ⟨e', hF, hrun⟩ | ⟨e, hF, hbr⟩
  · rw [hrun, findElasticIPID_fst] at hatt
    simp [isAttach] at hatt
  · rcases hbr with ⟨hd, hrun⟩ | ⟨hd, hbr2⟩
    · rw [hrun, findElasticIPID_fst] at hatt
      simp [isAttach] at hatt
    · rcases hbr2 with ⟨e2, hP, hrun⟩ | ⟨i, hP, hbr3⟩
      · rw [hrun, findElasticIPID_fst] at hatt
        have h0 := hpNoAtt e.attachment.id
        simp only [isAttach] at h0
        simp only [List.any_append, List.any_cons, List.any_nil, isAttach,
          h0] at hatt
        simp at hatt
      · rcases hbr3 with ⟨e3, hQ, hrun⟩ | ⟨nic, hQ, hbr4⟩
        · rw [hrun, findElasticIPID_fst, pickNetworkInterface_fst] at hatt
          have h0 := hpNoAtt e.attachment.id
          simp only [isAttach] at h0
          simp only [List.any_append, List.any_cons, List.any_nil, isAttach,
            h0] at hatt
          simp at hatt
        · have hine : i ≠ e.attachment.id := (pickNextInstance_ok hP).1
          have hp0 := pickNextInstance_countDetach env ids e.attachment.id
          rw [countDetach] at hp0
          simp only [isDetach] at hp0
          obtain ⟨_, p, _, hscan⟩ := pickNetworkInterface_ok hQ
          obtain ⟨_, nl1, nl2, hnl, _⟩ := scanNics_ok hscan
          have hmem : nic ∈ env.nics i := by
            rw [hnl]
            exact List.mem_append_right _ (List.mem_cons_self _ _)
          rcases hbr4 with ⟨hocc, hrun⟩ | ⟨hocc, hbr5⟩
          · refine ⟨e, i, nic, hF, hP, hQ, hine, Or.inl ⟨hocc, ?_⟩⟩
            rw [hrun, findElasticIPID_fst, pickNetworkInterface_fst]
            simp only [countDetach, List.countP_append, List.countP_cons,
              List.countP_nil, isDetach, hp0]
            simp
          · rcases hbr5 with ⟨hd2, hrun⟩ | ⟨hd2, hrun⟩
            · rw [hrun, findElasticIPID_fst, pickNetworkInterface_fst] at hatt
              have h0 := hpNoAtt e.attachment.id
              simp only [isAttach] at h0
              simp only [List.any_append, List.any_cons, List.any_nil,
                isAttach, h0] at hatt
              simp at hatt
            · have hoccId : nic.attachedElasticIP.attachment.id = i :=
                hcons i nic hmem hocc
              have hneq : nic.attachedElasticIP ≠ e := by
                intro hEq
                rw [hEq] at hoccId
                exact hine hoccId.symm
              refine ⟨e, i, nic, hF, hP, hQ, hine,
                Or.inr ⟨hocc, hneq, ?_, [Call.listEIPs],
                  (pickNextInstance env ids e.attachment.id).1 ++
                    [Call.listNics i], [], ?_, ?_, ?_, ?_⟩⟩
              · rw [hrun, findElasticIPID_fst, pickNetworkInterface_fst]
                simp only [countDetach, List.countP_append, List.countP_cons,
                  List.countP_nil, isDetach, hp0]
                simp
              · rw [hrun, findElasticIPID_fst, pickNetworkInterface_fst]
                simp [List.cons_append, List.append_assoc]
              · decide
              · simp only [countDetach, List.countP_append, List.countP_cons,
                  List.countP_nil, isDetach, hp0]
                simp
              · decide

theorem c5_prepare_detach_ordering_witness :
    ∃ e i nic,
      (findElasticIPID envC5 "198.51.100.7").2 = Except.ok e ∧
      (pickNextInstance envC5 [1, 2] e.attachment.id).2 = Except.ok i ∧
      (pickNetworkInterface envC5 i e.privateIP).2 = Except.ok nic ∧
      i ≠ e.attachment.id ∧
      ((nic.attachedElasticIP.publicIP = "" ∧
        countDetach (runInstanceIDs envC5 "198.51.100.7" [1, 2]).1 = 1) ∨
       (nic.attachedElasticIP.publicIP ≠ "" ∧ nic.attachedElasticIP ≠ e ∧
        countDetach (runInstanceIDs envC5 "198.51.100.7" [1, 2]).1 = 2 ∧
        ∃ l1 l2 l3, (runInstanceIDs envC5 "198.51.100.7" [1, 2]).1 =
          l1 ++ Call.detach e.attachment.id e.id ::
            (l2 ++ Call.detach i nic.attachedElasticIP.id ::
              (l3 ++ [Call.attach e.attachment.id e.id nic.id])) ∧
          countDetach l1 = 0 ∧ countDetach l2 = 0 ∧ countDetach l3 = 0)) := by
  refine c5_prepare_detach_ordering envC5 "198.51.100.7" [1, 2] ?_ (by decide)
  intro i nic hmem hne
  by_cases h2 : i = 2
  · subst h2
    have : envC5.nics 2 = [⟨31, "10.0.0.2", ⟨"10.0.0.0/24"⟩, occC5⟩] := rfl
    rw [this] at hmem
    rcases List.mem_singleton.mp hmem with rfl
    rfl
  · have hval : envC5.nics i =
        (if i == 2 then
          ([⟨31, "10.0.0.2", ⟨"10.0.0.0/24"⟩, occC5⟩] : List NetworkInterface)
        else []) := rfl
    rw [hval, if_neg (by simpa using h2)] at hmem
    cases hmem

/-! ### Fail-fast corollaries used by C8 -/

theorem failFast_dropLast {α : Type} {env : Env}
    {r : List Call × Except String α} (h : failFast env r) :
    ∀ c ∈ r.1.dropLast, callOK env c = true := by
  intro c hc
  cases hok : exceptOK r.2 with
  | true => exact h.1 hok c ((List.dropLast_sublist r.1).subset hc)
  | false =>
    rcases h.2 hok with hAll | ⟨pre, cc, heq, hpre, _⟩
    · exact hAll c ((List.dropLast_sublist r.1).subset hc)
    · rw [heq, List.dropLast_concat] at hc
      exact hpre c hc

theorem exitCode_eq_zero_iff (r : Except String Unit) :
    exitCode r = 0 ↔ r = Except.ok () := by
  cases r with
  | ok u => cases u; simp [exitCode]
  | error e => simp [exitCode]

/-- C8: every error aborts the `src/main.go` run at its first occurrence with
no retry and no compensating call: a configuration failure exits before any
provider call; every issued provider call except possibly the last one
succeeded (so nothing is issued after a failing call); exit code 0 holds
exactly on success, and a successful run's final issued call is the attach
with every issued call having succeeded. -/
theorem c8_fail_fast (env : Env) (flagToken flagEIP flagInstances : String) :
    ((mainInstanceIDs env flagToken flagEIP flagInstances).2 = Except.ok () →
      (∀ c ∈ (mainInstanceIDs env flagToken flagEIP flagInstances).1,
        callOK env c = true) ∧
      ∃ pre a b n, (mainInstanceIDs env flagToken flagEIP flagInstances).1 =
        pre ++ [Call.attach a b n]) ∧
    (∀ c ∈ (mainInstanceIDs env flagToken flagEIP flagInstances).1.dropLast,
      callOK env c = true) ∧
    (flagToken = "" →
      (mainInstanceIDs env flagToken flagEIP flagInstances).1 = [] ∧
      exitCode (mainInstanceIDs env flagToken flagEIP flagInstances).2 = 1) ∧
    (exitCode (mainInstanceIDs env flagToken flagEIP flagInstances).2 = 0 ↔
      (mainInstanceIDs env flagToken flagEIP flagInstances).2 = Except.ok ()) := by
  cases hT : checkFlagToken flagToken with
  | error eT =>
    have hmain : mainInstanceIDs env flagToken flagEIP flagInstances =
        ([], Except.error eT) := by
      simp [mainInstanceIDs, hT]
    rw [hmain]
    refine ⟨?_, ?_, ?_, ?_⟩
    · intro h
      simp at h
    · intro c hc
      simp at hc
    · intro _
      exact ⟨rfl, rfl⟩
    · simp [exitCode]
  | ok tk =>
    have hTne : flagToken ≠ "" := by
      intro h0
      rw [h0] at hT
      unfold checkFlagToken at hT
      simp at hT
    cases hE : checkFlagEIP flagEIP with
    | error eE =>
      have hmain : mainInstanceIDs env flagToken flagEIP flagInstances =
          ([], Except.error eE) := by
        simp [mainInstanceIDs, hT, hE]
      rw [hmain]
      refine ⟨?_, ?_, ?_, ?_⟩
      · intro h
        simp at h
      · intro c hc
        simp at hc
      · intro h0
        exact absurd h0 hTne
      · simp [exitCode]
    | ok eipStr =>
      cases hI : checkFlagInstances flagInstances with
      | error eI =>
        have hmain : mainInstanceIDs env flagToken flagEIP flagInstances =
            ([], Except.error eI) := by
          simp [mainInstanceIDs, hT, hE, hI]
        rw [hmain]
        refine ⟨?_, ?_, ?_, ?_⟩
        · intro h
          simp at h
        · intro c hc
          simp at hc
        · intro h0
          exact absurd h0 hTne
        · simp [exitCode]
      | ok idsV =>
        have hmain : mainInstanceIDs env flagToken flagEIP flagInstances =
            runInstanceIDs env eipStr idsV := by
          simp [mainInstanceIDs, hT, hE, hI]
        rw [hmain]
        obtain ⟨hFF, hEnds⟩ := runInstanceIDs_failFast env eipStr idsV
        refine ⟨?_, failFast_dropLast hFF, fun h0 => absurd h0 hTne,
          exitCode_eq_zero_iff _⟩
        intro hok
        have hok' : exceptOK (runInstanceIDs env eipStr idsV).2 = true := by
          rw [hok]
          rfl
        exact ⟨hFF.1 hok', hEnds hok'⟩

theorem c8_fail_fast_witness :
    (∀ c ∈ (mainInstanceIDs envC1 "tok" "198.51.100.7" "1,2").1,
      callOK envC1 c = true) ∧
    (∃ pre a b n, (mainInstanceIDs envC1 "tok" "198.51.100.7" "1,2").1 =
      pre ++ [Call.attach a b n]) ∧
    (∀ c ∈ (mainInstanceIDs envC1 "tok" "198.51.100.7" "1,2").1.dropLast,
      callOK envC1 c = true) ∧
    ((mainInstanceIDs envC1 "" "198.51.100.7" "1,2").1 = [] ∧
      exitCode (mainInstanceIDs envC1 "" "198.51.100.7" "1,2").2 = 1) :=
  ⟨((c8_fail_fast envC1 "tok" "198.51.100.7" "1,2").1 rfl).1,
   ((c8_fail_fast envC1 "tok" "198.51.100.7" "1,2").1 rfl).2,
   (c8_fail_fast envC1 "tok" "198.51.100.7" "1,2").2.1,
   (c8_fail_fast envC1 "" "198.51.100.7" "1,2").2.2.1 rfl⟩

end HAFlow
